import Mathlib

/-!
# Ripple — shallow embedding and verification

A shallow embedding of the core of the Ripple impact-analysis engine
(dependency graph construction and traversal, test mapping, risk scoring,
impact calculation), translated from the TypeScript sources
(`src/core/graph.ts`, `src/analyzers/test-mapper.ts`, the impact
calculator and risk scorer, and the shared type/config declarations).

JavaScript numbers are modelled as `ℚ` (with `Math.round x` as
`⌊x + 1/2⌋`), strings as `String`, `Map`/`Set` as insertion-ordered
association lists / lists without duplicates.  Filesystem-dependent
operations (`fs.existsSync`-based import resolution, `minimatch`,
`path.relative`/`path.resolve`, source-snippet reads) are passed in as
explicit function parameters, since they consult state outside the
program.
-/

namespace Ripple

/-! ## Models of JavaScript string and array primitives -/

/-- JS spread of a `Set` built from a list: deduplicate, keeping the first
occurrence of each element in order. -/
def jsDedup (xs : List String) : List String :=
  xs.foldl (fun acc x => if x ∈ acc then acc else acc ++ [x]) []

/-- JS `Math.round` (round half toward positive infinity). -/
def jsRound (x : ℚ) : ℤ := ⌊x + 1/2⌋

/-- Drop the last `n` characters of a string (JS `slice(0, -n)`). -/
def strDropRight (s : String) (n : Nat) : String :=
  String.mk (s.data.take (s.data.length - n))

/-- Drop the first `n` characters of a string. -/
def strDropLeft (s : String) (n : Nat) : String :=
  String.mk (s.data.drop n)

/-- JS `String.prototype.endsWith`. -/
def strEndsWith (s suf : String) : Bool :=
  List.isSuffixOf suf.data s.data

/-- JS `String.prototype.startsWith`. -/
def strStartsWith (s pre : String) : Bool :=
  List.isPrefixOf pre.data s.data

/-- Substring occurrence on character lists (helper for `strIncludes`). -/
def listIncl (hay need : List Char) : Bool :=
  match hay with
  | [] => need.isEmpty
  | _ :: t => List.isPrefixOf need hay || listIncl t need

/-- JS `String.prototype.includes`. -/
def strIncludes (s sub : String) : Bool :=
  listIncl s.data sub.data

/-! ## Models of Node `path` operations (pure string functions) -/

/-- Split a character list at a separator (structural helper). -/
def splitOnCharAux (sep : Char) : List Char → List Char → List (List Char)
  | [], cur => [cur.reverse]
  | c :: rest, cur =>
    if c = sep then cur.reverse :: splitOnCharAux sep rest []
    else splitOnCharAux sep rest (c :: cur)

/-- Split a string at a separator character. -/
def splitOnChar (sep : Char) (s : String) : List String :=
  (splitOnCharAux sep s.data []).map String.mk

/-- Join a list of strings with a separator. -/
def strIntercalate (sep : String) : List String → String
  | [] => ""
  | a :: rest => rest.foldl (fun acc x => acc ++ sep ++ x) a

/-- Node `path.basename`: the part after the final slash. -/
def basename (s : String) : String :=
  (splitOnChar '/' s).getLastD s

/-- Node `path.dirname`. -/
def dirname (s : String) : String :=
  let parts := splitOnChar '/' s
  if parts.length ≤ 1 then "." else
    let d := strIntercalate "/" parts.dropLast
    if d = "" then "/" else d

/-- Node `path.join` of two segments. -/
def pathJoin (a b : String) : String :=
  if a = "" then b else a ++ "/" ++ b

/-- Node `path.parse(s).name`: the basename with its final extension
removed (a lone leading dot does not start an extension). -/
def parseName (s : String) : String :=
  let b := basename s
  let parts := splitOnChar '.' b
  if parts.length ≤ 1 then b
  else if parts.length = 2 ∧ parts.headD "" = "" then b
  else strIntercalate "." parts.dropLast

/-! ## Data model (from the shared type declarations) -/

/-- `FileLocation`. -/
structure FileLocation where
  filePath : String
  line : Nat
  column : Nat
deriving DecidableEq

/-- `SymbolKind` (constructor names carry a `K` suffix where the source's
enum member would collide with a Lean keyword). -/
inductive SymbolKind where
  | functionK | classK | variableK | typeK | interfaceK | enumK | methodK | propertyK
deriving DecidableEq

/-- `Symbol`. -/
structure Symbol where
  name : String
  kind : SymbolKind
  location : FileLocation
  exportedAs : Option String := none
deriving DecidableEq

/-- `ImportSpecifier` (`local` is renamed `localName`: Lean keyword). -/
structure ImportSpecifier where
  imported : String
  localName : String
  isDefault : Bool
  isNamespace : Bool
deriving DecidableEq

/-- `ImportInfo`. -/
structure ImportInfo where
  source : String
  specifiers : List ImportSpecifier
  location : FileLocation
deriving DecidableEq

/-- `ExportInfo`. -/
structure ExportInfo where
  name : String
  kind : SymbolKind
  location : FileLocation
  isDefault : Bool
deriving DecidableEq

/-- `GraphNode`. -/
structure GraphNode where
  filePath : String
  symbols : List Symbol
  imports : List ImportInfo
  exports : List ExportInfo
  lastModified : Nat
deriving DecidableEq

/-- `RiskLevel` (the enum's string values LOW/MEDIUM/HIGH/CRITICAL). -/
inductive RiskLevel where
  | low | medium | high | critical
deriving DecidableEq

/-- Ordinal rank of a risk level, for stating monotonicity. -/
def RiskLevel.rank : RiskLevel → Nat
  | .low => 0
  | .medium => 1
  | .high => 2
  | .critical => 3

/-- `RiskFactor`. -/
structure RiskFactor where
  name : String
  weight : ℚ
  description : String
  value : ℚ
deriving DecidableEq

/-- `RiskScore`. -/
structure RiskScore where
  value : ℚ
  level : RiskLevel
  factors : List RiskFactor
deriving DecidableEq

/-- `Caller`. -/
structure Caller where
  location : FileLocation
  symbol : Symbol
  context : String
  isTestFile : Bool
  isCriticalPath : Bool
deriving DecidableEq

/-- One metric of `CoverageInfo` (total/covered/percentage). -/
structure CoverageMetric where
  total : ℚ
  covered : ℚ
  percentage : ℚ
deriving DecidableEq

/-- `CoverageInfo`. -/
structure CoverageInfo where
  lines : CoverageMetric
  branches : CoverageMetric
deriving DecidableEq

/-- `TestMapping`. -/
structure TestMapping where
  sourceFile : String
  testFiles : List String
  coverage : Option CoverageInfo
deriving DecidableEq

/-- The `riskThresholds` record of `RippleConfig`. -/
structure RiskThresholds where
  low : ℚ
  medium : ℚ
  high : ℚ
deriving DecidableEq

/-- `RippleConfig`. -/
structure RippleConfig where
  includePaths : List String
  excludePaths : List String
  testPatterns : List String
  riskThresholds : RiskThresholds
  criticalPathPatterns : List String
  sensitivity : String
  cacheEnabled : Bool
  cachePath : String
deriving DecidableEq

/-- `DEFAULT_CONFIG`. -/
def DEFAULT_CONFIG : RippleConfig where
  includePaths := ["src/**/*.ts", "src/**/*.tsx", "src/**/*.js", "src/**/*.jsx"]
  excludePaths := ["node_modules/**", "dist/**", "build/**", "**/*.d.ts"]
  testPatterns := ["**/*.test.ts", "**/*.test.tsx", "**/*.spec.ts", "**/*.spec.tsx",
    "**/__tests__/**", "**/tests/**"]
  riskThresholds := { low := 3, medium := 5, high := 7 }
  criticalPathPatterns := ["**/auth/**", "**/payment/**", "**/billing/**",
    "**/security/**", "**/admin/**"]
  sensitivity := "medium"
  cacheEnabled := true
  cachePath := ".ripple-cache"

/-- `RiskWeights` (field names are prefixed with `w`). -/
structure RiskWeights where
  wCallerCount : ℚ
  wUntested : ℚ
  wCriticalPath : ℚ
  wTestCoverage : ℚ
  wTransitiveDepth : ℚ
deriving DecidableEq

/-- `DEFAULT_WEIGHTS` (0.25 / 0.30 / 0.25 / 0.15 / 0.05). -/
def DEFAULT_WEIGHTS : RiskWeights where
  wCallerCount := 25/100
  wUntested := 30/100
  wCriticalPath := 25/100
  wTestCoverage := 15/100
  wTransitiveDepth := 5/100

/-- `ImpactSummary` (`testedCallers` is a JS subtraction, so an integer). -/
structure ImpactSummary where
  totalCallers : Nat
  testedCallers : ℤ
  untestedCallers : Nat
  criticalPathCallers : Nat
  filesAffected : Nat
  recommendation : String
deriving DecidableEq

/-- `ImpactAnalysis`. -/
structure ImpactAnalysis where
  target : Symbol
  directCallers : List Caller
  transitiveCallers : List Caller
  affectedTests : List TestMapping
  untestedCallers : List Caller
  riskScore : RiskScore
  summary : ImpactSummary
deriving DecidableEq

/-- The two hard failures the core can surface (thrown `Error`s). -/
inductive RippleError where
  | notFound (filePath : String)
  | symbolNotFound (symbolName filePath : String)
deriving DecidableEq

/-- `ImpactOptions` (defaults `includeTransitive = true`, `maxDepth = 10`
are supplied at the call sites of the embedding). -/
structure ImpactOptions where
  includeTransitive : Bool
  maxDepth : Nat
deriving DecidableEq

/-- External collaborators that consult state outside the program:
`parser.getContextSnippet` (filesystem read), `minimatch`,
`path.relative` and `path.resolve` (current-directory dependent). -/
structure ExternalEnv where
  ctxSnippet : String → Nat → String
  mm : String → String → Bool
  relativeTo : String → String → String
  resolvePath : String → String

/-! ## Graph engine (`src/core/graph.ts`)

`Map<string, Set<string>>` adjacency is an insertion-ordered association
list whose value lists carry no duplicates. -/

/-- Adjacency map: JS `Map<string, Set<string>>`. -/
abbrev AdjMap := List (String × List String)

/-- `Map.get`. -/
def adjGet : AdjMap → String → Option (List String)
  | [], _ => none
  | e :: rest, k => if e.1 = k then some e.2 else adjGet rest k

/-- `Map.get(k) ?? empty set`, as a list. -/
def adjGetD (m : AdjMap) (k : String) : List String :=
  (adjGet m k).getD []

/-- `B ∈ map.get(A)`: edge membership. -/
def adjMem (m : AdjMap) (a b : String) : Prop :=
  b ∈ adjGetD m a

instance (m : AdjMap) (a b : String) : Decidable (adjMem m a b) := by
  unfold adjMem; infer_instance

/-- `if (!m.has(k)) m.set(k, new Set()); m.get(k).add(v)`. -/
def adjAdd : AdjMap → String → String → AdjMap
  | [], k, v => [(k, [v])]
  | e :: rest, k, v =>
    if e.1 = k then (e.1, if v ∈ e.2 then e.2 else e.2 ++ [v]) :: rest
    else e :: adjAdd rest k v

/-- `Map.delete(k)`. -/
def adjDelKey (m : AdjMap) (k : String) : AdjMap :=
  m.filter (fun e => decide (¬ e.1 = k))

/-- `m.get(k)?.delete(v)`: remove `v` from the set stored at `k`. -/
def adjDelVal (m : AdjMap) (k v : String) : AdjMap :=
  m.map (fun e => if e.1 = k then (e.1, e.2.filter (fun x => decide (¬ x = v))) else e)

/-- The node table: JS `Map<string, GraphNode>`. -/
abbrev NodeMap := List (String × GraphNode)

/-- `nodes.get(f)`. -/
def lookupNode : NodeMap → String → Option GraphNode
  | [], _ => none
  | e :: rest, f => if e.1 = f then some e.2 else lookupNode rest f

/-- `nodes.has(f)`. -/
def nodesHas (nodes : NodeMap) (f : String) : Bool :=
  (lookupNode nodes f).isSome

/-- `nodes.set(f, node)` (replace in place, else append). -/
def nodesSet : NodeMap → String → GraphNode → NodeMap
  | [], f, node => [(f, node)]
  | e :: rest, f, node =>
    if e.1 = f then (e.1, node) :: rest else e :: nodesSet rest f node

/-- `nodes.delete(f)`. -/
def nodesDel (nodes : NodeMap) (f : String) : NodeMap :=
  nodes.filter (fun e => decide (¬ e.1 = f))

/-- The mutable state of a `DependencyGraphBuilder`'s graph. -/
structure GraphState where
  nodes : NodeMap
  edges : AdjMap
  reverseEdges : AdjMap

/-- `DependencyGraphBuilder.getNode`. -/
def getNode (g : GraphState) (filePath : String) : Option GraphNode :=
  lookupNode g.nodes filePath

/-- `DependencyGraphBuilder.buildEdges`: clear both adjacency maps, then
for every node and every import, resolve the specifier (the
filesystem-probing `resolveImport` is the `resolve` parameter) and, when
the target is a known node, add the forward and the reverse edge.
Returns the `(edges, reverseEdges)` pair. -/
def buildEdges (resolve : String → String → Option String) (nodes : NodeMap) :
    AdjMap × AdjMap :=
  nodes.foldl (fun maps entry =>
    entry.2.imports.foldl (fun maps imp =>
      match resolve imp.source entry.1 with
      | some rp =>
        if nodesHas nodes rp then (adjAdd maps.1 entry.1 rp, adjAdd maps.2 rp entry.1)
        else maps
      | none => maps) maps) ([], [])

/-- `DependencyGraphBuilder.build`, after file discovery and parsing
produced the node table: store the nodes and recompute the edges. -/
def build (resolve : String → String → Option String) (parsedNodes : NodeMap) :
    GraphState :=
  let maps := buildEdges resolve parsedNodes
  { nodes := parsedNodes, edges := maps.1, reverseEdges := maps.2 }

/-- `DependencyGraphBuilder.removeEdgesForFile`. -/
def removeEdgesForFile (g : GraphState) (filePath : String) : GraphState :=
  let g1 :=
    match adjGet g.edges filePath with
    | some deps =>
      let rev := deps.foldl (fun rm dep => adjDelVal rm dep filePath) g.reverseEdges
      { g with edges := adjDelKey g.edges filePath, reverseEdges := rev }
    | none => g
  match adjGet g1.reverseEdges filePath with
  | some dependents =>
    let ed := dependents.foldl (fun em dpt => adjDelVal em dpt filePath) g1.edges
    { g1 with edges := ed, reverseEdges := adjDelKey g1.reverseEdges filePath }
  | none => g1

/-- `DependencyGraphBuilder.updateIncremental`: per changed file, remove
its edges and reparse (`parseFile` is the frontend; `none` models a parse
failure/deleted file, dropping the node), then rebuild all edges. -/
def updateIncremental (resolve : String → String → Option String)
    (parseFile : String → Option GraphNode) (g : GraphState)
    (changedFiles : List String) : GraphState :=
  let g1 := changedFiles.foldl (fun g f =>
    let g := removeEdgesForFile g f
    match parseFile f with
    | some node => { g with nodes := nodesSet g.nodes f node }
    | none => { g with nodes := nodesDel g.nodes f }) g
  let maps := buildEdges resolve g1.nodes
  { g1 with edges := maps.1, reverseEdges := maps.2 }

/-- `DependencyGraphBuilder.getDirectDependents`. -/
def getDirectDependents (g : GraphState) (filePath : String) : List String :=
  adjGetD g.reverseEdges filePath

/-- `DependencyGraphBuilder.getDirectDependencies`. -/
def getDirectDependencies (g : GraphState) (filePath : String) : List String :=
  adjGetD g.edges filePath

/-- The recursive `traverse` closure of `getTransitiveDependents` (and
`getTransitiveDependencies`), with the shared `visited`/`result` state
passed explicitly.  `fuel = maxDepth - depth + 1`, so `fuel = 0` is the
`depth > maxDepth` early return. -/
def trav (rev : String → List String) : Nat → String →
    List String × List String → List String × List String
  | 0, _, st => st
  | fuel + 1, c, st =>
    if c ∈ st.1 then st
    else (rev c).foldl
      (fun acc dep => if dep ∈ acc.1 then acc
        else trav rev fuel dep (acc.1, acc.2 ++ [dep]))
      (c :: st.1, st.2)

/-- `DependencyGraphBuilder.getTransitiveDependents` (default
`maxDepth = 10`). -/
def getTransitiveDependents (g : GraphState) (maxDepth : Nat)
    (filePath : String) : List String :=
  (trav (fun c => adjGetD g.reverseEdges c) (maxDepth + 1) filePath ([], [])).2

/-! ## Lemmas for claim C1 (adjacency symmetry) -/

/-- The symmetry invariant between the two adjacency maps. -/
def EdgeSym (m1 m2 : AdjMap) : Prop :=
  ∀ a b, adjMem m1 a b ↔ adjMem m2 b a

theorem adjMem_adjAdd (m : AdjMap) (k v a b : String) :
    adjMem (adjAdd m k v) a b ↔ (a = k ∧ b = v) ∨ adjMem m a b := by
  induction m with
  | nil =>
    simp only [adjAdd, adjMem, adjGetD, adjGet]
    by_cases hka : k = a
    · subst hka; simp
    · have hak : ¬ a = k := fun h => hka h.symm
      simp [hka, hak]
  | cons e rest ih =>
    simp only [adjAdd]
    by_cases hek : e.1 = k
    · rw [if_pos hek]
      by_cases hea : e.1 = a
      · have hak : a = k := by rw [← hea, hek]
        simp only [adjMem, adjGetD, adjGet, if_pos hea, Option.getD_some]
        by_cases hv : v ∈ e.2
        · rw [if_pos hv]
          constructor
          · exact fun hb => Or.inr hb
          · rintro (⟨_, rfl⟩ | hb)
            · exact hv
            · exact hb
        · rw [if_neg hv]
          simp only [List.mem_append, List.mem_singleton, hak]
          tauto
      · have hak : ¬ a = k := fun h => hea (by rw [hek, ← h])
        simp only [adjMem, adjGetD, adjGet, if_neg hea]
        simp [hak]
    · rw [if_neg hek]
      by_cases hea : e.1 = a
      · have hak : ¬ a = k := fun h => hek (by rw [hea, h])
        simp only [adjMem, adjGetD, adjGet, if_pos hea]
        simp [hak]
      · simp only [adjMem, adjGetD, adjGet, if_neg hea]
        exact ih

theorem edgeSym_nil : EdgeSym [] [] := by
  intro a b; simp [adjMem, adjGetD, adjGet]

theorem edgeSym_add {m1 m2 : AdjMap} (h : EdgeSym m1 m2) (x y : String) :
    EdgeSym (adjAdd m1 x y) (adjAdd m2 y x) := by
  intro a b
  rw [adjMem_adjAdd, adjMem_adjAdd, h a b]
  tauto

/-- Fold-invariant helper: a property preserved by every step of a left
fold (with membership of the step element available) holds of the
result. -/
theorem foldl_preserve_mem {α β : Type _} (P : β → Prop) (f : β → α → β)
    (l : List α) (init : β) (h0 : P init)
    (hstep : ∀ b a, a ∈ l → P b → P (f b a)) : P (l.foldl f init) := by
  induction l generalizing init with
  | nil => exact h0
  | cons a t ih =>
    exact ih (f init a) (hstep init a (by simp) h0)
      (fun b x hx hb => hstep b x (by simp [hx]) hb)

theorem buildEdges_sym (resolve : String → String → Option String)
    (nodes : NodeMap) :
    EdgeSym (buildEdges resolve nodes).1 (buildEdges resolve nodes).2 := by
  unfold buildEdges
  refine foldl_preserve_mem (fun maps : AdjMap × AdjMap => EdgeSym maps.1 maps.2) _ _ _ edgeSym_nil ?_
  intro maps entry _ hsym
  refine foldl_preserve_mem (fun maps : AdjMap × AdjMap => EdgeSym maps.1 maps.2) _ _ _ hsym ?_
  intro maps imp _ hsym2
  rcases hres : resolve imp.source entry.1 with _ | rp
  · simpa [hres] using hsym2
  · by_cases hh : nodesHas nodes rp
    · simpa [hres, hh] using edgeSym_add hsym2 entry.1 rp
    · simpa [hres, hh] using hsym2

/-- C1: Adjacency symmetry of the dependency graph: after a full build
and after any incremental update (both of which end in a full edge
recomputation via `buildEdges`), a file B is in the forward-edge set of A
exactly when A is in the reverse-edge set of B. -/
theorem adjacency_symmetry :
    (∀ (resolve : String → String → Option String) (parsedNodes : NodeMap)
      (a b : String),
      adjMem (build resolve parsedNodes).edges a b ↔
        adjMem (build resolve parsedNodes).reverseEdges b a) ∧
    (∀ (resolve : String → String → Option String)
      (parseFile : String → Option GraphNode) (g : GraphState)
      (changedFiles : List String) (a b : String),
      adjMem (updateIncremental resolve parseFile g changedFiles).edges a b ↔
        adjMem (updateIncremental resolve parseFile g changedFiles).reverseEdges b a) := by
  constructor
  · intro resolve parsedNodes a b
    exact buildEdges_sym resolve parsedNodes a b
  · intro resolve parseFile g changedFiles a b
    unfold updateIncremental
    exact buildEdges_sym resolve _ a b

/-! ## Lemmas about the transitive traversal (claims C4 and C7) -/

/-- The traversal only grows the visited set, and only appends to the
result list. -/
theorem trav_grow (rev : String → List String) :
    ∀ (fuel : Nat) (c : String) (st : List String × List String),
      st.1 ⊆ (trav rev fuel c st).1 ∧ ∃ t, (trav rev fuel c st).2 = st.2 ++ t := by
  intro fuel
  induction fuel with
  | zero => exact fun c st => ⟨fun _ h => h, [], by simp [trav]⟩
  | succ fuel ih =>
    intro c st
    simp only [trav]
    by_cases hc : c ∈ st.1
    · rw [if_pos hc]
      exact ⟨fun _ h => h, [], by simp⟩
    · rw [if_neg hc]
      refine foldl_preserve_mem
        (fun acc : List String × List String => st.1 ⊆ acc.1 ∧ ∃ t, acc.2 = st.2 ++ t)
        _ _ _ ⟨fun x hx => List.mem_cons_of_mem _ hx, [], by simp⟩ ?_
      intro b dep _ hb
      obtain ⟨h1, t, ht⟩ := hb
      by_cases hd : dep ∈ b.1
      · rw [if_pos hd]; exact ⟨h1, t, ht⟩
      · rw [if_neg hd]
        obtain ⟨h1', t', ht'⟩ := ih dep (b.1, b.2 ++ [dep])
        refine ⟨fun x hx => h1' (h1 hx), t ++ [dep] ++ t', ?_⟩
        rw [ht', ht]; simp

/-- The visited set stays covered by the start file plus the result list,
provided the currently expanded file is so covered. -/
theorem trav_inv (rev : String → List String) (s : String) :
    ∀ (fuel : Nat) (c : String) (st : List String × List String),
      (c = s ∨ c ∈ st.2) →
      (∀ x ∈ st.1, x = s ∨ x ∈ st.2) →
      ∀ x ∈ (trav rev fuel c st).1, x = s ∨ x ∈ (trav rev fuel c st).2 := by
  intro fuel
  induction fuel with
  | zero => intro c st _ hInv; simpa [trav] using hInv
  | succ fuel ih =>
    intro c st hc hInv
    simp only [trav]
    by_cases hcv : c ∈ st.1
    · rw [if_pos hcv]; exact hInv
    · rw [if_neg hcv]
      refine foldl_preserve_mem
        (fun acc : List String × List String => ∀ x ∈ acc.1, x = s ∨ x ∈ acc.2)
        _ _ _ ?_ ?_
      · intro x hx
        rcases List.mem_cons.mp hx with rfl | hx'
        · exact hc
        · exact hInv x hx'
      · intro b dep _ hb
        by_cases hd : dep ∈ b.1
        · rw [if_pos hd]; exact hb
        · rw [if_neg hd]
          refine ih dep (b.1, b.2 ++ [dep]) (Or.inr (by simp)) ?_
          intro x hx
          exact (hb x hx).imp id (fun h => List.mem_append_left _ h)

/-- Once the start file is visited and absent from the result, it stays
that way. -/
theorem trav_nostart (rev : String → List String) (s : String) :
    ∀ (fuel : Nat) (c : String) (st : List String × List String),
      s ∈ st.1 → s ∉ st.2 →
      s ∈ (trav rev fuel c st).1 ∧ s ∉ (trav rev fuel c st).2 := by
  intro fuel
  induction fuel with
  | zero => intro c st h1 h2; simpa [trav] using ⟨h1, h2⟩
  | succ fuel ih =>
    intro c st h1 h2
    simp only [trav]
    by_cases hcv : c ∈ st.1
    · rw [if_pos hcv]; exact ⟨h1, h2⟩
    · rw [if_neg hcv]
      refine foldl_preserve_mem
        (fun acc : List String × List String => s ∈ acc.1 ∧ s ∉ acc.2)
        _ _ _ ⟨List.mem_cons_of_mem _ h1, h2⟩ ?_
      intro b dep _ hb
      by_cases hd : dep ∈ b.1
      · rw [if_pos hd]; exact hb
      · rw [if_neg hd]
        refine ih dep (b.1, b.2 ++ [dep]) hb.1 ?_
        intro hmem
        rcases List.mem_append.mp hmem with h | h
        · exact hb.2 h
        · rw [List.mem_singleton] at h
          exact hd (h ▸ hb.1)

/-- Growth through the child-processing fold of one expansion step. -/
theorem travFold_grow (rev : String → List String) (fuel : Nat) :
    ∀ (L : List String) (acc : List String × List String),
      acc.1 ⊆ (List.foldl (fun acc dep => if dep ∈ acc.1 then acc
          else trav rev fuel dep (acc.1, acc.2 ++ [dep])) acc L).1 ∧
      ∃ t, (List.foldl (fun acc dep => if dep ∈ acc.1 then acc
          else trav rev fuel dep (acc.1, acc.2 ++ [dep])) acc L).2 = acc.2 ++ t := by
  intro L acc
  refine foldl_preserve_mem
    (fun b : List String × List String => acc.1 ⊆ b.1 ∧ ∃ t, b.2 = acc.2 ++ t)
    _ _ _ ⟨fun _ h => h, [], by simp⟩ ?_
  intro b dep _ hb
  obtain ⟨h1, t, ht⟩ := hb
  by_cases hd : dep ∈ b.1
  · rw [if_pos hd]; exact ⟨h1, t, ht⟩
  · rw [if_neg hd]
    obtain ⟨h1', t', ht'⟩ := trav_grow rev fuel dep (b.1, b.2 ++ [dep])
    refine ⟨fun x hx => h1' (h1 hx), t ++ [dep] ++ t', ?_⟩
    rw [ht', ht]; simp

/-- Every element of the processed child list that differs from the start
file ends up in the result list of the fold. -/
theorem travFold_mem (rev : String → List String) (s : String) (fuel : Nat) :
    ∀ (L : List String) (acc : List String × List String),
      (∀ x ∈ acc.1, x = s ∨ x ∈ acc.2) →
      ∀ d ∈ L, d ≠ s →
        d ∈ (List.foldl (fun acc dep => if dep ∈ acc.1 then acc
            else trav rev fuel dep (acc.1, acc.2 ++ [dep])) acc L).2 := by
  intro L
  induction L with
  | nil => intro acc _ d hd; exact absurd hd (List.not_mem_nil d)
  | cons d0 rest ih =>
    intro acc hInv d hd hds
    rw [List.foldl_cons]
    have hInv' : ∀ x ∈ (if d0 ∈ acc.1 then acc
        else trav rev fuel d0 (acc.1, acc.2 ++ [d0])).1, x = s ∨ x ∈ (if d0 ∈ acc.1 then acc
        else trav rev fuel d0 (acc.1, acc.2 ++ [d0])).2 := by
      by_cases h0 : d0 ∈ acc.1
      · rw [if_pos h0]; exact hInv
      · rw [if_neg h0]
        refine trav_inv rev s fuel d0 (acc.1, acc.2 ++ [d0]) (Or.inr (by simp)) ?_
        intro x hx
        exact (hInv x hx).imp id (fun h => List.mem_append_left _ h)
    rcases List.mem_cons.mp hd with rfl | hdrest
    · -- the element is processed by this very step
      have hstep : d ∈ (if d ∈ acc.1 then acc
          else trav rev fuel d (acc.1, acc.2 ++ [d])).2 := by
        by_cases h0 : d ∈ acc.1
        · rw [if_pos h0]
          exact (hInv d h0).resolve_left hds
        · rw [if_neg h0]
          obtain ⟨_, t, ht⟩ := trav_grow rev fuel d (acc.1, acc.2 ++ [d])
          rw [ht]
          exact List.mem_append_left _ (List.mem_append_right _ (by simp))
      obtain ⟨_, t, ht⟩ := travFold_grow rev fuel rest
        (if d ∈ acc.1 then acc else trav rev fuel d (acc.1, acc.2 ++ [d]))
      rw [ht]
      exact List.mem_append_left _ hstep
    · exact ih _ hInv' d hdrest hds

/-! ### The universe of files mentioned in an adjacency map -/

/-- All keys and values of an adjacency map, deduplicated: the files the
traversal can ever touch. -/
def adjUniv (m : AdjMap) : List String :=
  jsDedup (m.foldl (fun acc e => acc ++ e.1 :: e.2) [])

theorem mem_jsDedup {x : String} {l : List String} : x ∈ jsDedup l ↔ x ∈ l := by
  have aux : ∀ (l acc : List String),
      x ∈ l.foldl (fun acc x => if x ∈ acc then acc else acc ++ [x]) acc ↔
        x ∈ acc ∨ x ∈ l := by
    intro l
    induction l with
    | nil => intro acc; simp
    | cons a t iht =>
      intro acc
      rw [List.foldl_cons]
      by_cases ha : a ∈ acc
      · rw [if_pos ha, iht]
        have hxa : x = a → x ∈ acc := fun h => h ▸ ha
        simp only [List.mem_cons]
        tauto
      · rw [if_neg ha, iht]
        simp only [List.mem_append, List.mem_singleton, List.mem_cons]
        tauto
  unfold jsDedup
  rw [aux]
  simp

theorem mem_adjUniv {m : AdjMap} {x : String} :
    x ∈ adjUniv m ↔ ∃ e ∈ m, x = e.1 ∨ x ∈ e.2 := by
  have aux : ∀ (m : AdjMap) (acc : List String),
      x ∈ m.foldl (fun acc e => acc ++ e.1 :: e.2) acc ↔
        x ∈ acc ∨ ∃ e ∈ m, x = e.1 ∨ x ∈ e.2 := by
    intro m
    induction m with
    | nil => intro acc; simp
    | cons e rest ih =>
      intro acc
      rw [List.foldl_cons, ih]
      simp only [List.mem_append, List.mem_cons]
      constructor
      · rintro ((h | h | h) | ⟨e', he', h⟩)
        · exact Or.inl h
        · exact Or.inr ⟨e, Or.inl rfl, Or.inl h⟩
        · exact Or.inr ⟨e, Or.inl rfl, Or.inr h⟩
        · exact Or.inr ⟨e', Or.inr he', h⟩
      · rintro (h | ⟨e', he' | he', h⟩)
        · exact Or.inl (Or.inl h)
        · subst he'; rcases h with h | h
          · exact Or.inl (Or.inr (Or.inl h))
          · exact Or.inl (Or.inr (Or.inr h))
        · exact Or.inr ⟨e', he', h⟩
  unfold adjUniv
  rw [mem_jsDedup, aux]
  simp

theorem adjGet_key_mem {m : AdjMap} {c : String} {l : List String}
    (h : adjGet m c = some l) : c ∈ adjUniv m := by
  induction m with
  | nil => simp [adjGet] at h
  | cons e rest ih =>
    rw [adjGet] at h
    by_cases he : e.1 = c
    · exact mem_adjUniv.mpr ⟨e, List.mem_cons_self _ _, Or.inl he.symm⟩
    · rw [if_neg he] at h
      have := ih h
      rcases mem_adjUniv.mp this with ⟨e', he', hx⟩
      exact mem_adjUniv.mpr ⟨e', List.mem_cons_of_mem _ he', hx⟩

theorem adjGetD_val_mem {m : AdjMap} {c x : String}
    (h : x ∈ adjGetD m c) : x ∈ adjUniv m := by
  induction m with
  | nil => simp [adjGetD, adjGet] at h
  | cons e rest ih =>
    rw [adjGetD, adjGet] at h
    by_cases he : e.1 = c
    · rw [if_pos he] at h
      exact mem_adjUniv.mpr ⟨e, List.mem_cons_self _ _, Or.inr (by simpa using h)⟩
    · rw [if_neg he] at h
      have := ih h
      rcases mem_adjUniv.mp this with ⟨e', he', hx⟩
      exact mem_adjUniv.mpr ⟨e', List.mem_cons_of_mem _ he', hx⟩

/-- Files of the universe not yet visited: the traversal's termination
measure. -/
def remaining (m : AdjMap) (v : List String) : Nat :=
  ((adjUniv m).filter (fun x => decide (¬ x ∈ v))).length

theorem filter_sublist_mono {α : Type _} (l : List α) (p q : α → Bool)
    (h : ∀ a, p a = true → q a = true) : List.Sublist (l.filter p) (l.filter q) := by
  induction l with
  | nil => simp
  | cons a t ih =>
    by_cases hp : p a = true
    · rw [List.filter_cons, List.filter_cons, if_pos hp, if_pos (h a hp)]
      exact ih.cons₂ a
    · rw [List.filter_cons, if_neg hp]
      by_cases hq : q a = true
      · rw [List.filter_cons, if_pos hq]
        exact ih.cons a
      · rw [List.filter_cons, if_neg hq]
        exact ih

theorem remaining_mono {m : AdjMap} {v w : List String}
    (h : ∀ x ∈ v, x ∈ w) : remaining m w ≤ remaining m v := by
  refine List.Sublist.length_le (filter_sublist_mono _ _ _ ?_)
  intro a ha
  simp only [decide_eq_true_eq] at ha ⊢
  exact fun hv => ha (h a hv)

theorem remaining_lt {m : AdjMap} {v : List String} {c : String}
    (hc : c ∈ adjUniv m) (hcv : ¬ c ∈ v) :
    remaining m (c :: v) < remaining m v := by
  unfold remaining
  have hsplit : (adjUniv m).filter (fun x => decide (¬ x ∈ c :: v)) =
      ((adjUniv m).filter (fun x => decide (¬ x ∈ v))).filter
        (fun x => decide (¬ x = c)) := by
    rw [List.filter_filter]
    refine List.filter_congr ?_
    intro a _
    by_cases h1 : a = c <;> by_cases h2 : a ∈ v <;> simp [h1, h2]
  rw [hsplit]
  have hcL : c ∈ (adjUniv m).filter (fun x => decide (¬ x ∈ v)) := by
    rw [List.mem_filter]
    exact ⟨hc, by simpa using hcv⟩
  exact List.length_filter_lt_length_iff_exists.mpr ⟨c, hcL, by simp⟩

/-- Main no-duplicates invariant: when enough fuel is left to visit every
untouched file of the universe, the result list stays duplicate-free and
covered by the visited set. -/
theorem trav_nodup (m : AdjMap) :
    ∀ (fuel : Nat) (c : String) (st : List String × List String),
      (∀ x ∈ st.2, x ∈ st.1 ∨ x = c) →
      st.2.Nodup →
      remaining m st.1 < fuel →
      (trav (fun c => adjGetD m c) fuel c st).2.Nodup ∧
        ∀ x ∈ (trav (fun c => adjGetD m c) fuel c st).2,
          x ∈ (trav (fun c => adjGetD m c) fuel c st).1 := by
  intro fuel
  induction fuel with
  | zero => intro c st _ _ hrem; exact absurd hrem (Nat.not_lt_zero _)
  | succ fuel ih =>
    intro c st hsub hnd hrem
    simp only [trav]
    by_cases hcv : c ∈ st.1
    · rw [if_pos hcv]
      exact ⟨hnd, fun x hx => (hsub x hx).elim id (fun h => h ▸ hcv)⟩
    · rw [if_neg hcv]
      by_cases hcu : c ∈ adjUniv m
      · have hrem1 : remaining m (c :: st.1) < fuel := by
          have := remaining_lt hcu hcv
          omega
        have hbase : st.2.Nodup ∧ (∀ x ∈ st.2, x ∈ c :: st.1) ∧
            ∀ x ∈ c :: st.1, x ∈ c :: st.1 := by
          refine ⟨hnd, ?_, fun x h => h⟩
          intro x hx
          rcases hsub x hx with h | h
          · exact List.mem_cons_of_mem _ h
          · exact h ▸ List.mem_cons_self _ _
        have hstep : ∀ (b : List String × List String) (dep : String),
            dep ∈ adjGetD m c →
            (b.2.Nodup ∧ (∀ x ∈ b.2, x ∈ b.1) ∧ ∀ x ∈ c :: st.1, x ∈ b.1) →
            ((if dep ∈ b.1 then b
              else trav (fun c => adjGetD m c) fuel dep (b.1, b.2 ++ [dep])).2.Nodup ∧
             (∀ x ∈ (if dep ∈ b.1 then b
              else trav (fun c => adjGetD m c) fuel dep (b.1, b.2 ++ [dep])).2,
                x ∈ (if dep ∈ b.1 then b
              else trav (fun c => adjGetD m c) fuel dep (b.1, b.2 ++ [dep])).1) ∧
             ∀ x ∈ c :: st.1, x ∈ (if dep ∈ b.1 then b
              else trav (fun c => adjGetD m c) fuel dep (b.1, b.2 ++ [dep])).1) := by
          intro b dep _ hb
          obtain ⟨bnd, bsub, bgrow⟩ := hb
          by_cases hd : dep ∈ b.1
          · rw [if_pos hd]; exact ⟨bnd, bsub, bgrow⟩
          · rw [if_neg hd]
            have hdep2 : dep ∉ b.2 := fun h => hd (bsub dep h)
            have hpre : ∀ x ∈ b.2 ++ [dep], x ∈ b.1 ∨ x = dep := by
              intro x hx
              rcases List.mem_append.mp hx with h | h
              · exact Or.inl (bsub x h)
              · exact Or.inr (by simpa using h)
            have hnd' : (b.2 ++ [dep]).Nodup := by
              rw [List.nodup_append]
              refine ⟨bnd, List.nodup_singleton _, ?_⟩
              simp only [List.disjoint_singleton]
              exact hdep2
            have hrem' : remaining m b.1 < fuel :=
              lt_of_le_of_lt (remaining_mono bgrow) hrem1
            obtain ⟨rnd, rsub⟩ := ih dep (b.1, b.2 ++ [dep]) hpre hnd' hrem'
            refine ⟨rnd, rsub, ?_⟩
            intro x hx
            exact (trav_grow _ fuel dep (b.1, b.2 ++ [dep])).1 (bgrow x hx)
        have hfold := foldl_preserve_mem
          (fun b : List String × List String => b.2.Nodup ∧
            (∀ x ∈ b.2, x ∈ b.1) ∧ ∀ x ∈ c :: st.1, x ∈ b.1)
          (fun acc dep => if dep ∈ acc.1 then acc
            else trav (fun c => adjGetD m c) fuel dep (acc.1, acc.2 ++ [dep]))
          (adjGetD m c) (c :: st.1, st.2) hbase
          (fun b dep hdep hb => hstep b dep hdep hb)
        exact ⟨hfold.1, hfold.2.1⟩
      · have hnil : adjGetD m c = [] := by
          cases hget : adjGet m c with
          | none => simp [adjGetD, hget]
          | some l => exact absurd (adjGet_key_mem hget) hcu
        rw [hnil]
        simp only [List.foldl_nil]
        refine ⟨hnd, ?_⟩
        intro x hx
        rcases hsub x hx with h | h
        · exact List.mem_cons_of_mem _ h
        · exact h ▸ List.mem_cons_self _ _

/-! ### Reverse-edge reachability within a hop bound (spec-side notion for
claim C7: "reachable via reverse edges in at most n hops") -/

/-- Files reachable from `s` through reverse edges in at most `n` hops. -/
def reachWithin (m : AdjMap) (s : String) : Nat → List String
  | 0 => [s]
  | n + 1 =>
    jsDedup (reachWithin m s n ++ (reachWithin m s n).flatMap (fun c => adjGetD m c))

theorem mem_reachWithin_succ_of_mem {m : AdjMap} {s x : String} {n : Nat}
    (h : x ∈ reachWithin m s n) : x ∈ reachWithin m s (n + 1) := by
  simp only [reachWithin]
  rw [mem_jsDedup]
  exact List.mem_append_left _ h

theorem reachWithin_le {m : AdjMap} {s x : String} {a b : Nat} (h : a ≤ b)
    (hx : x ∈ reachWithin m s a) : x ∈ reachWithin m s b := by
  obtain ⟨k, rfl⟩ := Nat.exists_eq_add_of_le h
  clear h
  induction k with
  | zero => simpa using hx
  | succ k ih => exact mem_reachWithin_succ_of_mem ih

theorem reachWithin_step {m : AdjMap} {s c x : String} {d : Nat}
    (hc : c ∈ reachWithin m s d) (hx : x ∈ adjGetD m c) :
    x ∈ reachWithin m s (d + 1) := by
  simp only [reachWithin]
  rw [mem_jsDedup]
  exact List.mem_append_right _ (List.mem_flatMap.mpr ⟨c, hc, hx⟩)

/-- Everything the traversal adds to the result is reachable within
`d + fuel` hops, when the expanded file is reachable within `d` hops. -/
theorem trav_depth (m : AdjMap) (s : String) :
    ∀ (fuel : Nat) (c : String) (st : List String × List String) (d : Nat),
      c ∈ reachWithin m s d →
      (∀ x ∈ st.2, x ∈ reachWithin m s (d + fuel)) →
      ∀ x ∈ (trav (fun c => adjGetD m c) fuel c st).2,
        x ∈ reachWithin m s (d + fuel) := by
  intro fuel
  induction fuel with
  | zero => intro c st d _ hst; simpa [trav] using hst
  | succ fuel ih =>
    intro c st d hc hst
    simp only [trav]
    by_cases hcv : c ∈ st.1
    · rw [if_pos hcv]; exact hst
    · rw [if_neg hcv]
      refine foldl_preserve_mem
        (fun b : List String × List String =>
          ∀ x ∈ b.2, x ∈ reachWithin m s (d + (fuel + 1)))
        _ _ _ hst ?_
      intro b dep hdep hb
      by_cases hd : dep ∈ b.1
      · rw [if_pos hd]; exact hb
      · rw [if_neg hd]
        have hdep1 : dep ∈ reachWithin m s (d + 1) := reachWithin_step hc hdep
        have hidx : (d + 1) + fuel = d + (fuel + 1) := by omega
        have hpush : ∀ x ∈ b.2 ++ [dep], x ∈ reachWithin m s ((d + 1) + fuel) := by
          intro x hx
          rcases List.mem_append.mp hx with h | h
          · rw [hidx]; exact hb x h
          · rw [List.mem_singleton] at h; subst h
            exact reachWithin_le (by omega) hdep1
        have hres := ih dep (b.1, b.2 ++ [dep]) (d + 1) hdep1 hpush
        intro x hx
        rw [← hidx]
        exact hres x hx

/-- One unfolding step of the traversal at its entry point. -/
theorem trav_top (rev : String → List String) (s : String) (M : Nat) :
    trav rev (M + 1) s ([], []) =
      (rev s).foldl (fun acc dep => if dep ∈ acc.1 then acc
        else trav rev M dep (acc.1, acc.2 ++ [dep])) ([s], []) := by
  simp [trav]

/-! ## Claims C4 and C7 -/

/-- Reverse-edge chain used for the C4 and C7 counterexamples: a path of
eleven hops from `s` to `c` plus, for C4, a two-hop shortcut through `d`. -/
def dupRev : AdjMap :=
  [("s", ["a1", "d"]), ("a1", ["a2"]), ("a2", ["a3"]), ("a3", ["a4"]),
   ("a4", ["a5"]), ("a5", ["a6"]), ("a6", ["a7"]), ("a7", ["a8"]),
   ("a8", ["a9"]), ("a9", ["a10"]), ("a10", ["c"]), ("d", ["c"])]

/-- Graph state holding only the reverse edges of `dupRev` (the traversal
reads nothing else). -/
def dupGraph : GraphState := { nodes := [], edges := [], reverseEdges := dupRev }

/-- A file whose import resolves to itself: a one-node cycle. -/
def selfGraph : GraphState :=
  { nodes := [], edges := [("x", ["x"])], reverseEdges := [("x", ["x"])] }

/-- Ten-hop-free small graph for the C4 witness. -/
def smallGraph : GraphState :=
  { nodes := [], edges := [], reverseEdges := [("s", ["a"]), ("a", ["b"])] }

/-- Chain of eleven reverse hops for the C7 counterexample. -/
def chainGraph : GraphState :=
  { nodes := [], edges := [],
    reverseEdges := [("s", ["a1"]), ("a1", ["a2"]), ("a2", ["a3"]),
      ("a3", ["a4"]), ("a4", ["a5"]), ("a5", ["a6"]), ("a6", ["a7"]),
      ("a7", ["a8"]), ("a8", ["a9"]), ("a9", ["a10"]), ("a10", ["c"])] }

/-- C4 counterexample: as stated, the claim is false.  With the default
`maxDepth = 10`, the twelve-file graph `dupGraph` makes
`getTransitiveDependents` return the file `c` twice (a file first pushed
while its parent sits at the depth bound is never marked visited, so the
two-hop shortcut pushes it again); and in `selfGraph`, whose one file
imports itself, the direct-dependent set contains the start file while
the transitive set never does, so the superset inclusion also fails. -/
theorem transitive_closure_counterexample :
    ¬ (getTransitiveDependents dupGraph 10 "s").Nodup ∧
    ("x" ∈ getDirectDependents selfGraph "x" ∧
      "x" ∉ getTransitiveDependents selfGraph 10 "x") := by decide

/-- C4 (amended): for every graph, every maximum depth and every start
file, the transitive-dependents list contains every direct dependent
other than the start file itself and never contains the start file; and
it contains no duplicate entries provided the graph mentions at most
`maxDepth` distinct files (so that the traversal never pushes a file at
the depth bound) — at the depth bound a pushed file is not marked
visited and can appear twice, as the counterexample shows. -/
theorem transitive_closure_properties (g : GraphState) (M : Nat) (s : String) :
    (∀ d ∈ getDirectDependents g s, d ≠ s → d ∈ getTransitiveDependents g M s) ∧
    s ∉ getTransitiveDependents g M s ∧
    ((adjUniv g.reverseEdges).length ≤ M →
      (getTransitiveDependents g M s).Nodup) := by
  refine ⟨?_, ?_, ?_⟩
  · intro d hd hds
    unfold getTransitiveDependents
    rw [trav_top]
    refine travFold_mem _ s M _ ([s], []) ?_ d hd hds
    intro x hx
    exact Or.inl (List.mem_singleton.mp hx)
  · unfold getTransitiveDependents
    rw [trav_top]
    have hstep : ∀ (b : List String × List String) (dep : String),
        dep ∈ (fun c => adjGetD g.reverseEdges c) s →
        (s ∈ b.1 ∧ s ∉ b.2) →
        s ∈ (if dep ∈ b.1 then b
          else trav (fun c => adjGetD g.reverseEdges c) M dep (b.1, b.2 ++ [dep])).1 ∧
        s ∉ (if dep ∈ b.1 then b
          else trav (fun c => adjGetD g.reverseEdges c) M dep (b.1, b.2 ++ [dep])).2 := by
      intro b dep _ hb
      by_cases hd : dep ∈ b.1
      · rw [if_pos hd]; exact hb
      · rw [if_neg hd]
        refine trav_nostart _ s M dep (b.1, b.2 ++ [dep]) hb.1 ?_
        intro hmem
        rcases List.mem_append.mp hmem with h | h
        · exact hb.2 h
        · rw [List.mem_singleton] at h
          exact hd (h ▸ hb.1)
    exact (foldl_preserve_mem
      (fun b : List String × List String => s ∈ b.1 ∧ s ∉ b.2)
      _ _ _ ⟨List.mem_singleton_self s, List.not_mem_nil s⟩ hstep).2
  · intro hM
    unfold getTransitiveDependents
    have hrem : remaining g.reverseEdges [] < M + 1 := by
      have : remaining g.reverseEdges [] = (adjUniv g.reverseEdges).length := by
        simp [remaining]
      omega
    exact (trav_nodup g.reverseEdges (M + 1) s ([], [])
      (fun x hx => absurd hx (List.not_mem_nil x)) List.nodup_nil hrem).1

/-- Closed instance of `transitive_closure_properties` at a concrete
three-file graph, discharging each hypothesis. -/
theorem transitive_closure_properties_witness :
    ("a" ∈ getDirectDependents smallGraph "s" ∧ "a" ≠ "s" ∧
      "a" ∈ getTransitiveDependents smallGraph 10 "s") ∧
    "s" ∉ getTransitiveDependents smallGraph 10 "s" ∧
    ((adjUniv smallGraph.reverseEdges).length ≤ 10 ∧
      (getTransitiveDependents smallGraph 10 "s").Nodup) :=
  ⟨⟨by decide, by decide,
    (transitive_closure_properties smallGraph 10 "s").1 "a" (by decide) (by decide)⟩,
   (transitive_closure_properties smallGraph 10 "s").2.1,
   ⟨by decide, (transitive_closure_properties smallGraph 10 "s").2.2 (by decide)⟩⟩

/-- C7 counterexample: as stated, the claim is false.  In the eleven-hop
chain `chainGraph` with the default `maxDepth = 10`, the file `c` —
whose shortest reverse-edge distance from `s` is 11 — appears in the
result: children are pushed while their parent sits at the depth bound,
so the realized bound is `maxDepth + 1`, not `maxDepth`. -/
theorem transitive_hop_bound_counterexample :
    "c" ∈ getTransitiveDependents chainGraph 10 "s" ∧
    "c" ∉ reachWithin chainGraph.reverseEdges "s" 10 := by decide

/-- C7 (amended): every file returned by `getTransitiveDependents` with
bound `maxDepth` is reachable from the start file via reverse edges in at
most `maxDepth + 1` hops; equivalently no file whose shortest
reverse-edge distance exceeds `maxDepth + 1` ever appears.  Files at
exactly `maxDepth + 1` hops can appear, per the counterexample. -/
theorem transitive_hop_bound (g : GraphState) (maxDepth : Nat) (s x : String)
    (hx : x ∈ getTransitiveDependents g maxDepth s) :
    x ∈ reachWithin g.reverseEdges s (maxDepth + 1) := by
  unfold getTransitiveDependents at hx
  have h0 : s ∈ reachWithin g.reverseEdges s 0 := by simp [reachWithin]
  have hall := trav_depth g.reverseEdges s (maxDepth + 1) s ([], []) 0 h0
    (fun y hy => absurd hy (List.not_mem_nil y))
  have hidx : 0 + (maxDepth + 1) = maxDepth + 1 := by omega
  rw [hidx] at hall
  exact hall x hx

/-- Closed instance of `transitive_hop_bound` at the chain graph. -/
theorem transitive_hop_bound_witness :
    "a1" ∈ getTransitiveDependents chainGraph 10 "s" ∧
    "a1" ∈ reachWithin chainGraph.reverseEdges "s" 11 :=
  ⟨by decide, transitive_hop_bound chainGraph 10 "s" "a1" (by decide)⟩

/-! ## Test mapper (`src/analyzers/test-mapper.ts`) -/

/-- One file's normalized coverage record (`lines`/`branches`/`functions`
hit-count maps, keys are line numbers / branch ids / function names). -/
structure CovRec where
  lines : List (String × ℚ)
  branches : List (String × ℚ)
  functions : List (String × ℚ)
deriving DecidableEq

/-- `CoverageData`: a per-file map of coverage records. -/
abbrev CoverageData := List (String × CovRec)

/-- JS object property access `coverageData[p]`. -/
def covFind : CoverageData → String → Option CovRec
  | [], _ => none
  | e :: rest, k => if e.1 = k then some e.2 else covFind rest k

/-- The state of an initialized `TestMapper`: the discovered test-file set
and the (optionally) loaded coverage data. -/
structure TestMapperState where
  testFiles : List String
  coverageData : Option CoverageData

/-- `TestMapper.isTestFile`. -/
def tmIsTestFile (tm : TestMapperState) (filePath : String) : Bool :=
  decide (filePath ∈ tm.testFiles)

/-- `TestMapper.calculateCoverageInfo`. -/
def calculateCoverageInfo (r : CovRec) : CoverageInfo :=
  let lineEntries := r.lines.map (fun e => e.2)
  let branchEntries := r.branches.map (fun e => e.2)
  let linesTotal := lineEntries.length
  let linesCovered := (lineEntries.filter (fun v => decide (0 < v))).length
  let branchesTotal := branchEntries.length
  let branchesCovered := (branchEntries.filter (fun v => decide (0 < v))).length
  let linesMetric : CoverageMetric :=
    { total := linesTotal, covered := linesCovered,
      percentage := if 0 < linesTotal
        then ((linesCovered : ℚ) / (linesTotal : ℚ)) * 100 else 0 }
  let branchesMetric : CoverageMetric :=
    { total := branchesTotal, covered := branchesCovered,
      percentage := if 0 < branchesTotal
        then ((branchesCovered : ℚ) / (branchesTotal : ℚ)) * 100 else 0 }
  { lines := linesMetric, branches := branchesMetric }

/-- First coverage record found among the candidate path spellings. -/
def covLookupFirst (data : CoverageData) : List String → Option CovRec
  | [] => none
  | p :: rest =>
    match covFind data p with
    | some r => some r
    | none => covLookupFirst data rest

/-- `TestMapper.getCoverageForFile`: try the path as given, relative to
the root, and fully resolved — first match wins. -/
def getCoverageForFile (env : ExternalEnv) (rootDir : String)
    (tm : TestMapperState) (filePath : String) : Option CoverageInfo :=
  match tm.coverageData with
  | none => none
  | some data =>
    (covLookupFirst data
      [filePath, env.relativeTo rootDir filePath, env.resolvePath filePath]).map
      calculateCoverageInfo

/-- The candidate test base names of `findByNamingConvention`. -/
def testNamePatterns (baseName : String) : List String :=
  [baseName ++ ".test", baseName ++ ".spec", baseName ++ "-test", baseName ++ "_test"]

/-- The extension list of `findByNamingConvention`. -/
def tmExtensions : List String := [".ts", ".tsx", ".js", ".jsx"]

/-- `TestMapper.findByNamingConvention`. -/
def findByNamingConvention (tm : TestMapperState) (sourceFile : String) :
    List String :=
  let baseName := parseName sourceFile
  let dir := dirname sourceFile
  (testNamePatterns baseName).flatMap (fun pat =>
    tmExtensions.flatMap (fun ext =>
      let sameDirPath := pathJoin dir (pat ++ ext)
      let testsDirPath := pathJoin (pathJoin dir "__tests__") (pat ++ ext)
      let testsSiblingPath := pathJoin (pathJoin dir "tests") (pat ++ ext)
      (if sameDirPath ∈ tm.testFiles then [sameDirPath] else []) ++
      (if testsDirPath ∈ tm.testFiles then [testsDirPath] else []) ++
      (if testsSiblingPath ∈ tm.testFiles then [testsSiblingPath] else [])))

/-- `TestMapper.findByImportAnalysis`. -/
def findByImportAnalysis (tm : TestMapperState) (g : GraphState)
    (sourceFile : String) : List String :=
  (getDirectDependents g sourceFile).filter (fun dep => decide (dep ∈ tm.testFiles))

/-- The chained suffix strips of `findColocatedTests`
(`.test`/`.spec`, then `-test`/`-spec`, then `_test`/`_spec`). -/
def stripTestSuffixes (s : String) : String :=
  let s1 := if strEndsWith s ".test" then strDropRight s 5
    else if strEndsWith s ".spec" then strDropRight s 5 else s
  let s2 := if strEndsWith s1 "-test" then strDropRight s1 5
    else if strEndsWith s1 "-spec" then strDropRight s1 5 else s1
  if strEndsWith s2 "_test" then strDropRight s2 5
  else if strEndsWith s2 "_spec" then strDropRight s2 5 else s2

/-- `TestMapper.findColocatedTests`. -/
def findColocatedTests (tm : TestMapperState) (sourceFile : String) :
    List String :=
  let baseName := parseName sourceFile
  let parentTestsDir := pathJoin (dirname (dirname sourceFile)) "__tests__"
  tm.testFiles.filter (fun testFile =>
    strStartsWith testFile parentTestsDir &&
    decide (stripTestSuffixes (parseName testFile) = baseName))

/-- `TestMapper.getTestsForFile`: union the three strategies, deduplicate,
attach coverage, and record the queried source file. -/
def getTestsForFile (env : ExternalEnv) (rootDir : String)
    (tm : TestMapperState) (g : GraphState) (sourceFile : String) : TestMapping :=
  let conventionTests := findByNamingConvention tm sourceFile
  let importTests := findByImportAnalysis tm g sourceFile
  let colocatedTests := findColocatedTests tm sourceFile
  { sourceFile := sourceFile,
    testFiles := jsDedup (conventionTests ++ importTests ++ colocatedTests),
    coverage := getCoverageForFile env rootDir tm sourceFile }

/-! ## Risk scorer (`RiskScorer`) -/

/-- `RiskInput`. -/
structure RiskInput where
  directCallers : List Caller
  transitiveCallers : List Caller
  untestedCallers : List Caller
  affectedTests : List TestMapping
  filePath : String
deriving DecidableEq

/-- `RiskScorer.calculateCallerFactor`. -/
def calculateCallerFactor (w : RiskWeights) (input : RiskInput) : RiskFactor :=
  let totalCallers := input.directCallers.length + input.transitiveCallers.length
  let value : ℚ :=
    if totalCallers = 0 then 0
    else if totalCallers ≤ 5 then 2 + ((totalCallers : ℚ) / 5) * 2
    else if totalCallers ≤ 15 then 4 + (((totalCallers : ℚ) - 5) / 10) * 2
    else if totalCallers ≤ 30 then 6 + (((totalCallers : ℚ) - 15) / 15) * 2
    else 8 + min 2 (((totalCallers : ℚ) - 30) / 50)
  { name := "Caller Count", weight := w.wCallerCount,
    description := toString totalCallers ++ " total callers (" ++
      toString input.directCallers.length ++ " direct, " ++
      toString input.transitiveCallers.length ++ " transitive)",
    value := value }

/-- `RiskScorer.calculateUntestedFactor`. -/
def calculateUntestedFactor (w : RiskWeights) (input : RiskInput) : RiskFactor :=
  let totalCallers := input.directCallers.length + input.transitiveCallers.length
  let untestedCount := input.untestedCallers.length
  if totalCallers = 0 then
    { name := "Untested Callers", weight := w.wUntested,
      description := "No callers to evaluate", value := 0 }
  else
    let frac : ℚ := (untestedCount : ℚ) / (totalCallers : ℚ)
    { name := "Untested Callers", weight := w.wUntested,
      description := toString untestedCount ++ "/" ++ toString totalCallers ++
        " callers lack test coverage (" ++ toString (jsRound (frac * 100)) ++ "%)",
      value := frac * 10 }

/-- `RiskScorer.isInCriticalPath` (matches the raw path only — unlike the
impact calculator's variant, which also tries the root-relative path). -/
def scorerIsInCriticalPath (env : ExternalEnv) (cfg : RippleConfig)
    (filePath : String) : Bool :=
  cfg.criticalPathPatterns.any (fun pat => env.mm filePath pat)

/-- `RiskScorer.calculateCriticalPathFactor`. -/
def calculateCriticalPathFactor (env : ExternalEnv) (cfg : RippleConfig)
    (w : RiskWeights) (input : RiskInput) : RiskFactor :=
  let allCallers := input.directCallers ++ input.transitiveCallers
  let criticalPathCallers := allCallers.filter (fun c => c.isCriticalPath)
  let fileInCriticalPath := scorerIsInCriticalPath env cfg input.filePath
  let value : ℚ := (if fileInCriticalPath then 5 else 0) +
    (if 0 < criticalPathCallers.length
      then min 5 ((criticalPathCallers.length : ℚ)) else 0)
  let criticalPaths :=
    (if fileInCriticalPath then ["Target file in critical path"] else []) ++
    (if 0 < criticalPathCallers.length
      then [toString criticalPathCallers.length ++ " callers in critical paths"]
      else [])
  { name := "Critical Path", weight := w.wCriticalPath,
    description := if 0 < criticalPaths.length
      then String.intercalate "; " criticalPaths
      else "No critical path involvement",
    value := value }

/-- The lookup `input.affectedTests.find(t => t.sourceFile === input.filePath)`
that opens `calculateTestCoverageFactor`; its `none` case is the
"No test mapping found" branch. -/
def targetTestsOf (input : RiskInput) : Option TestMapping :=
  input.affectedTests.find? (fun t => decide (t.sourceFile = input.filePath))

/-- The found-mapping branches of `calculateTestCoverageFactor`. -/
def coverageFactorForMapping (w : RiskWeights) (targetTests : TestMapping) :
    RiskFactor :=
  if targetTests.testFiles.length = 0 then
    { name := "Test Coverage", weight := w.wTestCoverage,
      description := "No test files found for this file", value := 10 }
  else
    match targetTests.coverage with
    | none =>
      { name := "Test Coverage", weight := w.wTestCoverage,
        description := toString targetTests.testFiles.length ++
          " test file(s) found (no coverage data)",
        value := 3 }
    | some coverage =>
      let avgCoverage := (coverage.lines.percentage + coverage.branches.percentage) / 2
      { name := "Test Coverage", weight := w.wTestCoverage,
        description := toString (jsRound coverage.lines.percentage) ++
          "% line coverage, " ++ toString (jsRound coverage.branches.percentage) ++
          "% branch coverage",
        value := 10 - avgCoverage / 10 }

/-- `RiskScorer.calculateTestCoverageFactor`. -/
def calculateTestCoverageFactor (w : RiskWeights) (input : RiskInput) :
    RiskFactor :=
  match targetTestsOf input with
  | none =>
    { name := "Test Coverage", weight := w.wTestCoverage,
      description := "No test mapping found", value := 8 }
  | some targetTests => coverageFactorForMapping w targetTests

/-- `RiskScorer.calculateTransitiveFactor`. -/
def calculateTransitiveFactor (w : RiskWeights) (input : RiskInput) : RiskFactor :=
  let transitiveCount := input.transitiveCallers.length
  let value : ℚ :=
    if transitiveCount = 0 then 0
    else if transitiveCount ≤ 5 then 2
    else if transitiveCount ≤ 15 then 4
    else if transitiveCount ≤ 30 then 6
    else 8
  { name := "Transitive Impact", weight := w.wTransitiveDepth,
    description := toString transitiveCount ++ " transitive dependencies",
    value := value }

/-- The five factors, in push order. -/
def riskFactors (env : ExternalEnv) (cfg : RippleConfig) (w : RiskWeights)
    (input : RiskInput) : List RiskFactor :=
  [calculateCallerFactor w input, calculateUntestedFactor w input,
   calculateCriticalPathFactor env cfg w input,
   calculateTestCoverageFactor w input, calculateTransitiveFactor w input]

/-- The weighted sum reduce of `calculateRisk`. -/
def weightedSumOf (factors : List RiskFactor) : ℚ :=
  factors.foldl (fun sum f => sum + f.value * f.weight) 0

/-- The clamped (pre-rounding) scalar `normalizedValue` of
`calculateRisk`: `Math.min(10, Math.max(0, weightedSum))`. -/
def normalizedScore (env : ExternalEnv) (cfg : RippleConfig) (w : RiskWeights)
    (input : RiskInput) : ℚ :=
  min 10 (max 0 (weightedSumOf (riskFactors env cfg w input)))

/-- `RiskScorer.determineRiskLevel`. -/
def determineRiskLevel (cfg : RippleConfig) (score : ℚ) : RiskLevel :=
  if cfg.riskThresholds.high ≤ score then RiskLevel.critical
  else if cfg.riskThresholds.medium ≤ score then RiskLevel.high
  else if cfg.riskThresholds.low ≤ score then RiskLevel.medium
  else RiskLevel.low

/-- `RiskScorer.calculateRisk`. -/
def calculateRisk (env : ExternalEnv) (cfg : RippleConfig) (w : RiskWeights)
    (input : RiskInput) : RiskScore :=
  let factors := riskFactors env cfg w input
  let normalizedValue := min 10 (max 0 (weightedSumOf factors))
  { value := (jsRound (normalizedValue * 10) : ℚ) / 10,
    level := determineRiskLevel cfg normalizedValue,
    factors := factors }

/-! ## Impact calculator (`ImpactCalculator`) -/

/-- `ImpactCalculator.isCriticalPath` (tries the root-relative path and
the raw path against every pattern). -/
def calcIsCriticalPath (env : ExternalEnv) (cfg : RippleConfig)
    (rootDir filePath : String) : Bool :=
  let relativePath := env.relativeTo rootDir filePath
  cfg.criticalPathPatterns.any (fun pat =>
    env.mm relativePath pat || env.mm filePath pat)

/-- The specifier normalization of `pathsToCallers`: one leading `./`
strip, then one leading `../` strip, then one `.js`/`.jsx` strip. -/
def normalizeImportSource (src : String) : String :=
  let s1 := if strStartsWith src "./" then strDropLeft src 2 else src
  let s2 := if strStartsWith s1 "../" then strDropLeft s1 3 else s1
  if strEndsWith s2 ".js" then strDropRight s2 3
  else if strEndsWith s2 ".jsx" then strDropRight s2 4
  else s2

/-- `basename.replace(/\.(ts|tsx|js|jsx)$/, '')`. -/
def stripSrcExt (s : String) : String :=
  if strEndsWith s ".tsx" then strDropRight s 4
  else if strEndsWith s ".ts" then strDropRight s 3
  else if strEndsWith s ".jsx" then strDropRight s 4
  else if strEndsWith s ".js" then strDropRight s 3
  else s

/-- The three matching heuristics of `pathsToCallers`: exact equality
with the target's extension-stripped basename, suffix match on
`/<basename>`, or the target path containing the normalized specifier. -/
def importMatchesSource (imp : ImportInfo) (sourceFile : String) : Bool :=
  let importSource := normalizeImportSource imp.source
  let sourceBasename := stripSrcExt (basename sourceFile)
  decide (importSource = sourceBasename) ||
    strEndsWith importSource ("/" ++ sourceBasename) ||
    strIncludes sourceFile importSource

/-- `symbolName || path.basename(sourceFile)` (the empty string is falsy
in JS). -/
def callerSymbolName (symbolName : Option String) (sourceFile : String) : String :=
  match symbolName with
  | some s => if s = "" then basename sourceFile else s
  | none => basename sourceFile

/-- The `Caller` record pushed by `pathsToCallers` for one matching
import. -/
def mkImportCaller (env : ExternalEnv) (cfg : RippleConfig)
    (rootDir : String) (tm : TestMapperState) (depPath : String)
    (imp : ImportInfo) (sourceFile : String) (symbolName : Option String) :
    Caller :=
  let importSymbol : Symbol :=
    { name := callerSymbolName symbolName sourceFile,
      kind := SymbolKind.variableK, location := imp.location, exportedAs := none }
  { location := imp.location,
    symbol := importSymbol,
    context := env.ctxSnippet depPath imp.location.line,
    isTestFile := tmIsTestFile tm depPath,
    isCriticalPath := calcIsCriticalPath env cfg rootDir depPath }

/-- The inner import loop of `pathsToCallers` for one candidate file. -/
def callersFromImports (env : ExternalEnv) (cfg : RippleConfig)
    (rootDir : String) (tm : TestMapperState) (depPath : String) :
    List ImportInfo → String → Option String → List Caller
  | [], _, _ => []
  | imp :: rest, sourceFile, symbolName =>
    (if importMatchesSource imp sourceFile
      then [mkImportCaller env cfg rootDir tm depPath imp sourceFile symbolName]
      else []) ++
    callersFromImports env cfg rootDir tm depPath rest sourceFile symbolName

/-- `ImpactCalculator.pathsToCallers`. -/
def pathsToCallers (env : ExternalEnv) (cfg : RippleConfig) (rootDir : String)
    (g : GraphState) (tm : TestMapperState) :
    List String → String → Option String → List Caller
  | [], _, _ => []
  | depPath :: rest, sourceFile, symbolName =>
    (match getNode g depPath with
      | none => []
      | some node =>
        callersFromImports env cfg rootDir tm depPath node.imports
          sourceFile symbolName) ++
    pathsToCallers env cfg rootDir g tm rest sourceFile symbolName

/-- `ImpactCalculator.generateSummary`. -/
def generateSummary (input : RiskInput) (riskScore : RiskScore) : ImpactSummary :=
  let totalCallers := input.directCallers.length + input.transitiveCallers.length
  let affectedFiles := jsDedup
    ((input.directCallers.map (fun c => c.location.filePath)) ++
      (input.transitiveCallers.map (fun c => c.location.filePath)))
  { totalCallers := totalCallers,
    testedCallers := (totalCallers : ℤ) - input.untestedCallers.length,
    untestedCallers := input.untestedCallers.length,
    criticalPathCallers := ((input.directCallers ++ input.transitiveCallers).filter
      (fun c => c.isCriticalPath)).length,
    filesAffected := affectedFiles.length,
    recommendation :=
      if riskScore.level = RiskLevel.critical then
        "HIGH RISK: This change affects critical paths and has low test coverage. Consider adding tests before proceeding."
      else if riskScore.level = RiskLevel.high then
        "CAUTION: This change has significant impact. Review all affected files carefully."
      else if riskScore.level = RiskLevel.medium then
        "MODERATE RISK: Some callers lack test coverage. Consider reviewing the untested paths."
      else
        "LOW RISK: This change has limited impact and good test coverage. Safe to proceed." }

/-- The `RiskInput` that `analyzeFileImpact` assembles and hands to the
risk scorer (direct callers, transitive-only callers, affected tests
headed by the target's own mapping, untested callers). -/
def fileRiskInput (env : ExternalEnv) (cfg : RippleConfig) (rootDir : String)
    (g : GraphState) (tm : TestMapperState) (filePath : String)
    (opts : ImpactOptions) : RiskInput :=
  let directDependentPaths := getDirectDependents g filePath
  let directCallers :=
    pathsToCallers env cfg rootDir g tm directDependentPaths filePath none
  let transitiveCallers :=
    if opts.includeTransitive then
      let transitivePaths := getTransitiveDependents g opts.maxDepth filePath
      let transitiveOnly := transitivePaths.filter
        (fun p => decide (¬ p ∈ directDependentPaths))
      pathsToCallers env cfg rootDir g tm transitiveOnly filePath none
    else []
  let testMapping := getTestsForFile env rootDir tm g filePath
  let affectedTests := testMapping :: directDependentPaths.filterMap (fun depPath =>
    let depTests := getTestsForFile env rootDir tm g depPath
    if 0 < depTests.testFiles.length then some depTests else none)
  let allCallers := directCallers ++ transitiveCallers
  let untestedCallers := allCallers.filter (fun caller =>
    decide ((getTestsForFile env rootDir tm g caller.location.filePath).testFiles.length = 0))
  { directCallers := directCallers, transitiveCallers := transitiveCallers,
    untestedCallers := untestedCallers, affectedTests := affectedTests,
    filePath := filePath }

/-- `ImpactCalculator.analyzeFileImpact` (a thrown `Error` is the
`Except.error` case). -/
def analyzeFileImpact (env : ExternalEnv) (cfg : RippleConfig)
    (rootDir : String) (g : GraphState) (tm : TestMapperState)
    (filePath : String) (opts : ImpactOptions) :
    Except RippleError ImpactAnalysis :=
  match getNode g filePath with
  | none => Except.error (RippleError.notFound filePath)
  | some _ =>
    let fileSymbol : Symbol :=
      { name := basename filePath,
        kind := SymbolKind.variableK,
        location := { filePath := filePath, line := 1, column := 1 },
        exportedAs := none }
    let input := fileRiskInput env cfg rootDir g tm filePath opts
    let riskScore := calculateRisk env cfg DEFAULT_WEIGHTS input
    Except.ok
      { target := fileSymbol, directCallers := input.directCallers,
        transitiveCallers := input.transitiveCallers,
        affectedTests := input.affectedTests,
        untestedCallers := input.untestedCallers, riskScore := riskScore,
        summary := generateSummary input riskScore }

/-- The caller computation of `analyzeSymbolImpact`: both lists stay
empty unless the symbol is exported; otherwise direct callers come from
dependents whose imports name the symbol (or a wildcard), and transitive
callers from the remaining transitive dependents. -/
def symbolDirectAndTransitive (env : ExternalEnv) (cfg : RippleConfig)
    (rootDir : String) (g : GraphState) (tm : TestMapperState)
    (node : GraphNode) (symbolName filePath : String) (opts : ImpactOptions) :
    List Caller × List Caller :=
  let isExported := node.exports.any (fun e => decide (e.name = symbolName))
  if isExported then
    let directDependentPaths := getDirectDependents g filePath
    let importingFiles := directDependentPaths.filter (fun depPath =>
      match getNode g depPath with
      | none => false
      | some depNode => depNode.imports.any (fun imp =>
          imp.specifiers.any (fun spec =>
            decide (spec.imported = symbolName) || decide (spec.imported = "*"))))
    let directCallers :=
      pathsToCallers env cfg rootDir g tm importingFiles filePath (some symbolName)
    let transitiveCallers :=
      if opts.includeTransitive then
        let transitivePaths := getTransitiveDependents g opts.maxDepth filePath
        let transitiveOnly := transitivePaths.filter
          (fun p => decide (¬ p ∈ importingFiles))
        pathsToCallers env cfg rootDir g tm transitiveOnly filePath (some symbolName)
      else []
    (directCallers, transitiveCallers)
  else ([], [])

/-- The `RiskInput` that `analyzeSymbolImpact` assembles. -/
def symbolRiskInput (env : ExternalEnv) (cfg : RippleConfig)
    (rootDir : String) (g : GraphState) (tm : TestMapperState)
    (node : GraphNode) (symbolName filePath : String) (opts : ImpactOptions) :
    RiskInput :=
  let callers := symbolDirectAndTransitive env cfg rootDir g tm node
    symbolName filePath opts
  let testMapping := getTestsForFile env rootDir tm g filePath
  let allCallers := callers.1 ++ callers.2
  let untestedCallers := allCallers.filter (fun caller =>
    decide ((getTestsForFile env rootDir tm g caller.location.filePath).testFiles.length = 0))
  { directCallers := callers.1, transitiveCallers := callers.2,
    untestedCallers := untestedCallers, affectedTests := [testMapping],
    filePath := filePath }

/-- `ImpactCalculator.analyzeSymbolImpact`. -/
def analyzeSymbolImpact (env : ExternalEnv) (cfg : RippleConfig)
    (rootDir : String) (g : GraphState) (tm : TestMapperState)
    (symbolName filePath : String) (opts : ImpactOptions) :
    Except RippleError ImpactAnalysis :=
  match getNode g filePath with
  | none => Except.error (RippleError.notFound filePath)
  | some node =>
    match node.symbols.find? (fun s => decide (s.name = symbolName)) with
    | none => Except.error (RippleError.symbolNotFound symbolName filePath)
    | some symbol =>
      let input := symbolRiskInput env cfg rootDir g tm node symbolName
        filePath opts
      let riskScore := calculateRisk env cfg DEFAULT_WEIGHTS input
      Except.ok
        { target := symbol, directCallers := input.directCallers,
          transitiveCallers := input.transitiveCallers,
          affectedTests := input.affectedTests,
          untestedCallers := input.untestedCallers, riskScore := riskScore,
          summary := generateSummary input riskScore }

/-- The result record of `quickRiskCheck`. -/
structure QuickRisk where
  riskLevel : String
  callerCount : Nat
  hasTests : Bool
deriving DecidableEq

/-- `ImpactCalculator.quickRiskCheck`: independent of the weighted score
and of node existence — it reads only the direct-dependent count and the
test mapping. -/
def quickRiskCheck (env : ExternalEnv) (rootDir : String) (g : GraphState)
    (tm : TestMapperState) (filePath : String) : QuickRisk :=
  let directDependents := getDirectDependents g filePath
  let testMapping := getTestsForFile env rootDir tm g filePath
  let callerCount := directDependents.length
  let hasTests : Bool := decide (0 < testMapping.testFiles.length)
  { riskLevel :=
      if 20 < callerCount ∧ hasTests = false then "CRITICAL"
      else if 10 < callerCount ∨ hasTests = false then "HIGH"
      else if 5 < callerCount then "MEDIUM"
      else "LOW",
    callerCount := callerCount,
    hasTests := hasTests }

/-! ## Shared concrete fixtures -/

/-- External environment with trivial collaborators: empty snippets, a
matcher that matches nothing, identity path functions. -/
def env0 : ExternalEnv :=
  { ctxSnippet := fun _ _ => "", mm := fun _ _ => false,
    relativeTo := fun _ f => f, resolvePath := fun f => f }

/-- A test mapper that discovered no test files and no coverage. -/
def tmEmpty : TestMapperState := { testFiles := [], coverageData := none }

/-- The empty graph. -/
def gEmpty : GraphState := { nodes := [], edges := [], reverseEdges := [] }

/-- The default impact options (`includeTransitive = true`, `maxDepth = 10`). -/
def opts0 : ImpactOptions := { includeTransitive := true, maxDepth := 10 }

/-! ## Claim C3: NotFound on the path-taking API surface -/

/-- C3 counterexample: the claim is false as stated.  On a file with no
Node, `quickRiskCheck` succeeds (returning HIGH for zero dependents and
no tests) and `getDirectDependents`/`getDirectDependencies` return empty
lists; only the analyze entry points fail with NotFound. -/
theorem notFound_counterexample :
    getNode gEmpty "missing.ts" = none ∧
    quickRiskCheck env0 "" gEmpty tmEmpty "missing.ts" =
      { riskLevel := "HIGH", callerCount := 0, hasTests := false } ∧
    getDirectDependents gEmpty "missing.ts" = [] ∧
    getDirectDependencies gEmpty "missing.ts" = [] ∧
    analyzeFileImpact env0 DEFAULT_CONFIG "" gEmpty tmEmpty "missing.ts" opts0 =
      Except.error (RippleError.notFound "missing.ts") := by
  refine ⟨rfl, by decide, rfl, rfl, rfl⟩

/-- C3 (amended): when the file has no Node, `analyzeFileImpact` and
`analyzeSymbolImpact` fail with NotFound, while `quickRiskCheck`,
`getDirectDependents` and `getDirectDependencies` do not fail: they
return ordinary results read straight off the adjacency maps (an absent
key acting as an empty set). -/
theorem notFound_behavior (env : ExternalEnv) (cfg : RippleConfig)
    (rootDir : String) (g : GraphState) (tm : TestMapperState)
    (symbolName filePath : String) (opts : ImpactOptions)
    (h : getNode g filePath = none) :
    analyzeFileImpact env cfg rootDir g tm filePath opts =
      Except.error (RippleError.notFound filePath) ∧
    analyzeSymbolImpact env cfg rootDir g tm symbolName filePath opts =
      Except.error (RippleError.notFound filePath) ∧
    (quickRiskCheck env rootDir g tm filePath).callerCount =
      (getDirectDependents g filePath).length ∧
    getDirectDependents g filePath = adjGetD g.reverseEdges filePath ∧
    getDirectDependencies g filePath = adjGetD g.edges filePath := by
  refine ⟨?_, ?_, rfl, rfl, rfl⟩
  · unfold analyzeFileImpact
    rw [h]
  · unfold analyzeSymbolImpact
    rw [h]

/-- Closed instance of `notFound_behavior` at the empty graph. -/
theorem notFound_behavior_witness :
    getNode gEmpty "missing.ts" = none ∧
    (analyzeFileImpact env0 DEFAULT_CONFIG "" gEmpty tmEmpty "missing.ts" opts0 =
      Except.error (RippleError.notFound "missing.ts") ∧
    analyzeSymbolImpact env0 DEFAULT_CONFIG "" gEmpty tmEmpty "getUser" "missing.ts" opts0 =
      Except.error (RippleError.notFound "missing.ts") ∧
    (quickRiskCheck env0 "" gEmpty tmEmpty "missing.ts").callerCount =
      (getDirectDependents gEmpty "missing.ts").length ∧
    getDirectDependents gEmpty "missing.ts" = adjGetD gEmpty.reverseEdges "missing.ts" ∧
    getDirectDependencies gEmpty "missing.ts" = adjGetD gEmpty.edges "missing.ts") :=
  ⟨rfl, notFound_behavior env0 DEFAULT_CONFIG "" gEmpty tmEmpty "getUser"
    "missing.ts" opts0 rfl⟩

/-! ## Claim C5: the quick-check rule table -/

/-- Modelled from the spec: the literal rule table of section 4.3
("if count > 20 AND no tests → Critical; else if count > 10 OR no
tests → High; else if count > 5 → Medium; else Low"). -/
def specQuickLevel (count : Nat) (hasTests : Bool) : String :=
  if 20 < count ∧ hasTests = false then "CRITICAL"
  else if 10 < count ∨ hasTests = false then "HIGH"
  else if 5 < count then "MEDIUM"
  else "LOW"

/-- Twenty-five files importing `t.ts`. -/
def g25 : GraphState :=
  { nodes := [], edges := [],
    reverseEdges := [("t.ts",
      ["d1", "d2", "d3", "d4", "d5", "d6", "d7", "d8", "d9", "d10",
       "d11", "d12", "d13", "d14", "d15", "d16", "d17", "d18", "d19", "d20",
       "d21", "d22", "d23", "d24", "d25"])] }

/-- A discovered sibling test file for `/s/user.ts`. -/
def tmUser : TestMapperState :=
  { testFiles := ["/s/user.test.ts"], coverageData := none }

/-- C5: `quickRiskCheck` follows the spec's literal rule table (with
short-circuit order) on every input; in particular 25 direct dependents
with no tests yield CRITICAL, and 0 dependents with a test present
yield LOW. -/
theorem quick_risk_rule_table :
    (∀ (env : ExternalEnv) (rootDir : String) (g : GraphState)
      (tm : TestMapperState) (filePath : String),
      (quickRiskCheck env rootDir g tm filePath).riskLevel =
        specQuickLevel (quickRiskCheck env rootDir g tm filePath).callerCount
          (quickRiskCheck env rootDir g tm filePath).hasTests) ∧
    quickRiskCheck env0 "" g25 tmEmpty "t.ts" =
      { riskLevel := "CRITICAL", callerCount := 25, hasTests := false } ∧
    quickRiskCheck env0 "" gEmpty tmUser "/s/user.ts" =
      { riskLevel := "LOW", callerCount := 0, hasTests := true } := by
  refine ⟨?_, by decide, by decide⟩
  intro env rootDir g tm filePath
  rfl

/-! ## Claim C9: coverage percentage totality -/

/-- C9: for every coverage record, each percentage is a well-defined
rational in [0, 100]; it is 0 when the metric's total is 0 and
covered/total × 100 when the total is positive (the totals being the
entry counts of the record). -/
theorem coverage_percentage_total (r : CovRec) :
    (0 ≤ (calculateCoverageInfo r).lines.percentage ∧
      (calculateCoverageInfo r).lines.percentage ≤ 100) ∧
    (0 ≤ (calculateCoverageInfo r).branches.percentage ∧
      (calculateCoverageInfo r).branches.percentage ≤ 100) ∧
    (r.lines.length = 0 → (calculateCoverageInfo r).lines.percentage = 0) ∧
    (0 < r.lines.length → (calculateCoverageInfo r).lines.percentage =
      (calculateCoverageInfo r).lines.covered /
        (calculateCoverageInfo r).lines.total * 100) ∧
    (r.branches.length = 0 → (calculateCoverageInfo r).branches.percentage = 0) ∧
    (0 < r.branches.length → (calculateCoverageInfo r).branches.percentage =
      (calculateCoverageInfo r).branches.covered /
        (calculateCoverageInfo r).branches.total * 100) := by
  have key : ∀ (entries : List ℚ),
      (0 ≤ (if 0 < entries.length
        then (((entries.filter (fun v => decide (0 < v))).length : ℚ) /
          (entries.length : ℚ)) * 100 else 0) ∧
      (if 0 < entries.length
        then (((entries.filter (fun v => decide (0 < v))).length : ℚ) /
          (entries.length : ℚ)) * 100 else 0) ≤ 100) := by
    intro entries
    by_cases h : 0 < entries.length
    · rw [if_pos h]
      have hle : ((entries.filter (fun v => decide (0 < v))).length : ℚ) ≤
          (entries.length : ℚ) := by
        exact_mod_cast List.length_filter_le _ _
      have hpos : (0 : ℚ) < (entries.length : ℚ) := by exact_mod_cast h
      constructor
      · positivity
      · have hdiv : ((entries.filter (fun v => decide (0 < v))).length : ℚ) /
            (entries.length : ℚ) ≤ 1 := by
          rw [div_le_one hpos]; exact hle
        nlinarith
    · rw [if_neg h]
      norm_num
  have hl := key (r.lines.map (fun e => e.2))
  have hb := key (r.branches.map (fun e => e.2))
  simp only [List.length_map] at hl hb
  refine ⟨?_, ?_, ?_, ?_, ?_, ?_⟩
  · simpa [calculateCoverageInfo] using hl
  · simpa [calculateCoverageInfo] using hb
  · intro h0
    simp [calculateCoverageInfo, h0]
  · intro hpos
    simp [calculateCoverageInfo, List.length_map, if_pos hpos]
  · intro h0
    simp [calculateCoverageInfo, h0]
  · intro hpos
    simp [calculateCoverageInfo, List.length_map, if_pos hpos]

/-- A coverage record with two line entries (one hit) and no branch
entries. -/
def covRecW : CovRec :=
  { lines := [("1", 1), ("2", 0)], branches := [], functions := [] }

/-- Closed instance of `coverage_percentage_total` at a record with two
line entries (one hit) and no branch entries. -/
theorem coverage_percentage_total_witness :
    (0 ≤ (calculateCoverageInfo covRecW).lines.percentage ∧
      (calculateCoverageInfo covRecW).lines.percentage ≤ 100) ∧
    (0 < covRecW.lines.length ∧
      (calculateCoverageInfo covRecW).lines.percentage =
        (calculateCoverageInfo covRecW).lines.covered /
          (calculateCoverageInfo covRecW).lines.total * 100) ∧
    (covRecW.branches.length = 0 ∧
      (calculateCoverageInfo covRecW).branches.percentage = 0) :=
  ⟨(coverage_percentage_total covRecW).1,
   ⟨by decide, (coverage_percentage_total covRecW).2.2.2.1 (by decide)⟩,
   ⟨rfl, (coverage_percentage_total covRecW).2.2.2.2.1 rfl⟩⟩

/-! ## Claim C10: the "No test mapping found" branch is unreachable from
the two analysis entry points -/

/-- C10: every risk input assembled by `analyzeFileImpact` or
`analyzeSymbolImpact` carries the target file's own test mapping (whose
`sourceFile` is the analyzed path) at the head of `affectedTests`, so
the scorer's target-mapping lookup always succeeds and the
"No test mapping found" branch (value 8) of the Test Coverage factor is
never taken: the factor always comes from the found-mapping branches. -/
theorem test_mapping_branch_unreachable (env : ExternalEnv)
    (cfg : RippleConfig) (rootDir : String) (g : GraphState)
    (tm : TestMapperState) (node : GraphNode)
    (symbolName filePath : String) (opts : ImpactOptions) (w : RiskWeights) :
    (getTestsForFile env rootDir tm g filePath).sourceFile = filePath ∧
    targetTestsOf (fileRiskInput env cfg rootDir g tm filePath opts) =
      some (getTestsForFile env rootDir tm g filePath) ∧
    targetTestsOf (symbolRiskInput env cfg rootDir g tm node symbolName filePath opts) =
      some (getTestsForFile env rootDir tm g filePath) ∧
    calculateTestCoverageFactor w (fileRiskInput env cfg rootDir g tm filePath opts) =
      coverageFactorForMapping w (getTestsForFile env rootDir tm g filePath) ∧
    calculateTestCoverageFactor w (symbolRiskInput env cfg rootDir g tm node symbolName filePath opts) =
      coverageFactorForMapping w (getTestsForFile env rootDir tm g filePath) := by
  have hsrc : (getTestsForFile env rootDir tm g filePath).sourceFile = filePath := rfl
  have hfile : targetTestsOf (fileRiskInput env cfg rootDir g tm filePath opts) =
      some (getTestsForFile env rootDir tm g filePath) := by
    unfold targetTestsOf fileRiskInput
    simp [List.find?, hsrc]
  have hsym : targetTestsOf (symbolRiskInput env cfg rootDir g tm node symbolName filePath opts) =
      some (getTestsForFile env rootDir tm g filePath) := by
    unfold targetTestsOf symbolRiskInput
    simp [List.find?, hsrc]
  refine ⟨hsrc, hfile, hsym, ?_, ?_⟩
  · unfold calculateTestCoverageFactor
    rw [hfile]
  · unfold calculateTestCoverageFactor
    rw [hsym]

/-! ## Claim C6: private symbols produce empty caller sets -/

/-- C6: when the named symbol is found in the file's symbol list but is
not a member of its export list, `analyzeSymbolImpact` succeeds and both
the direct-caller list and the transitive-caller list are empty,
whatever the graph holds. -/
theorem private_symbol_empty (env : ExternalEnv) (cfg : RippleConfig)
    (rootDir : String) (g : GraphState) (tm : TestMapperState)
    (symbolName filePath : String) (opts : ImpactOptions)
    (node : GraphNode) (sym : Symbol)
    (hnode : getNode g filePath = some node)
    (hsym : node.symbols.find? (fun s => decide (s.name = symbolName)) = some sym)
    (hexp : node.exports.any (fun e => decide (e.name = symbolName)) = false) :
    ∃ A, analyzeSymbolImpact env cfg rootDir g tm symbolName filePath opts =
      Except.ok A ∧ A.directCallers = [] ∧ A.transitiveCallers = [] := by
  unfold analyzeSymbolImpact
  rw [hnode]
  simp only [hsym]
  refine ⟨_, rfl, ?_, ?_⟩ <;>
    simp [symbolRiskInput, symbolDirectAndTransitive, hexp]

/-- The target file of the C6 witness: one private symbol, no exports. -/
def privSym : Symbol :=
  { name := "priv", kind := SymbolKind.functionK,
    location := { filePath := "/src/f.ts", line := 3, column := 1 },
    exportedAs := none }

/-- Node for `/src/f.ts` holding only the private symbol. -/
def privNode : GraphNode :=
  { filePath := "/src/f.ts", symbols := [privSym], imports := [],
    exports := [], lastModified := 0 }

/-- The single import specifier of `/src/imp.ts`. -/
def impSpec : ImportSpecifier :=
  { imported := "x", localName := "x", isDefault := false, isNamespace := false }

/-- The import statement of `/src/imp.ts`. -/
def impImport : ImportInfo :=
  { source := "./f", specifiers := [impSpec],
    location := { filePath := "/src/imp.ts", line := 1, column := 1 } }

/-- Node for `/src/imp.ts`, which imports `/src/f.ts`. -/
def impNode : GraphNode :=
  { filePath := "/src/imp.ts", symbols := [], imports := [impImport],
    exports := [], lastModified := 0 }

/-- Two-file graph where `/src/imp.ts` imports `/src/f.ts`. -/
def gPriv : GraphState :=
  { nodes := [("/src/f.ts", privNode), ("/src/imp.ts", impNode)],
    edges := [("/src/imp.ts", ["/src/f.ts"])],
    reverseEdges := [("/src/f.ts", ["/src/imp.ts"])] }

/-- Closed instance of `private_symbol_empty`: the private symbol of
`/src/f.ts` has empty caller sets even though `/src/imp.ts` imports the
file. -/
theorem private_symbol_empty_witness :
    (getNode gPriv "/src/f.ts" = some privNode ∧
      privNode.symbols.find? (fun s => decide (s.name = "priv")) = some privSym ∧
      privNode.exports.any (fun e => decide (e.name = "priv")) = false ∧
      getDirectDependents gPriv "/src/f.ts" = ["/src/imp.ts"]) ∧
    ∃ A, analyzeSymbolImpact env0 DEFAULT_CONFIG "" gPriv tmEmpty "priv"
        "/src/f.ts" opts0 = Except.ok A ∧
      A.directCallers = [] ∧ A.transitiveCallers = [] :=
  ⟨⟨by decide, by decide, by decide, by decide⟩,
   private_symbol_empty env0 DEFAULT_CONFIG "" gPriv tmEmpty "priv" "/src/f.ts"
     opts0 privNode privSym (by decide) (by decide) (by decide)⟩

/-! ## Claim C8: caller materialization does not filter by symbol name -/

/-- A specifier naming only the symbol `other`. -/
def otherSpec : ImportSpecifier :=
  { imported := "other", localName := "other", isDefault := false, isNamespace := false }

/-- An import of `./user` that names only the symbol `other`. -/
def otherImport : ImportInfo :=
  { source := "./user", specifiers := [otherSpec],
    location := { filePath := "/src/api.ts", line := 2, column := 1 } }

/-- Node for `/src/api.ts` holding only `otherImport`. -/
def apiNode : GraphNode :=
  { filePath := "/src/api.ts", symbols := [], imports := [otherImport],
    exports := [], lastModified := 0 }

/-- Graph holding only `/src/api.ts`. -/
def gApi : GraphState :=
  { nodes := [("/src/api.ts", apiNode)], edges := [], reverseEdges := [] }

/-- C8 counterexample: the claim is false as stated.  Materializing
callers of `/src/user.ts` for the symbol `getUser` still produces a
Caller entry from an import that matches the file but names neither
`getUser` nor a wildcard — `pathsToCallers` never inspects specifiers. -/
theorem caller_symbol_filter_counterexample :
    otherImport.specifiers.all
      (fun spec => (!(spec.imported == "getUser")) && (!(spec.imported == "*"))) = true ∧
    importMatchesSource otherImport "/src/user.ts" = true ∧
    (pathsToCallers env0 DEFAULT_CONFIG "" gApi tmEmpty ["/src/api.ts"]
      "/src/user.ts" (some "getUser")).length = 1 := by
  refine ⟨by decide, by decide, by decide⟩

/-- The caller lists with and without a symbol name differ only in the
reported symbol's name (inner import loop). -/
theorem callersFromImports_symbol (env : ExternalEnv) (cfg : RippleConfig)
    (rootDir : String) (tm : TestMapperState) (depPath : String)
    (imps : List ImportInfo) (sourceFile sym : String) (hsym : ¬ sym = "") :
    callersFromImports env cfg rootDir tm depPath imps sourceFile (some sym) =
      (callersFromImports env cfg rootDir tm depPath imps sourceFile none).map
        (fun c => { c with symbol := { c.symbol with name := sym } }) := by
  induction imps with
  | nil => rfl
  | cons imp rest ih =>
    simp only [callersFromImports, List.map_append, ih]
    congr 1
    by_cases h : importMatchesSource imp sourceFile
    · simp [h, mkImportCaller, callerSymbolName, hsym]
    · simp [h]

/-- C8 (amended): a supplied symbol name does not restrict which import
statements of the candidate files produce Caller entries — any import
matching the file by the three specifier heuristics produces one,
whether or not it names the symbol.  The symbol name only renames the
reported symbol of each produced Caller; symbol-based filtering happens
solely in `analyzeSymbolImpact`'s earlier choice of candidate files. -/
theorem caller_symbol_no_filter (env : ExternalEnv) (cfg : RippleConfig)
    (rootDir : String) (g : GraphState) (tm : TestMapperState)
    (paths : List String) (sourceFile sym : String) (hsym : ¬ sym = "") :
    pathsToCallers env cfg rootDir g tm paths sourceFile (some sym) =
      (pathsToCallers env cfg rootDir g tm paths sourceFile none).map
        (fun c => { c with symbol := { c.symbol with name := sym } }) := by
  induction paths with
  | nil => rfl
  | cons depPath rest ih =>
    simp only [pathsToCallers, List.map_append, ih]
    congr 1
    cases getNode g depPath with
    | none => rfl
    | some node =>
      exact callersFromImports_symbol env cfg rootDir tm depPath node.imports
        sourceFile sym hsym

/-- Closed instance of `caller_symbol_no_filter` at the `gApi` graph. -/
theorem caller_symbol_no_filter_witness :
    ¬ "getUser" = "" ∧
    pathsToCallers env0 DEFAULT_CONFIG "" gApi tmEmpty ["/src/api.ts"]
        "/src/user.ts" (some "getUser") =
      (pathsToCallers env0 DEFAULT_CONFIG "" gApi tmEmpty ["/src/api.ts"]
        "/src/user.ts" none).map
        (fun c => { c with symbol := { c.symbol with name := "getUser" } }) :=
  ⟨by decide, caller_symbol_no_filter env0 DEFAULT_CONFIG "" gApi tmEmpty
    ["/src/api.ts"] "/src/user.ts" "getUser" (by decide)⟩

/-! ## Claim C2: score bounds and level vs. the rounded value -/

/-- A configuration with the default thresholds (low 3, medium 5, high 7)
and no critical-path patterns. -/
def cfg0 : RippleConfig := { DEFAULT_CONFIG with criticalPathPatterns := [] }

/-- Location shared by the fixture callers. -/
def callerLoc : FileLocation := { filePath := "/x/caller.ts", line := 1, column := 1 }

/-- Symbol shared by the fixture callers. -/
def callerSym : Symbol :=
  { name := "f", kind := SymbolKind.variableK, location := callerLoc,
    exportedAs := none }

/-- A caller outside every critical path. -/
def plainCaller : Caller :=
  { location := callerLoc, symbol := callerSym, context := "",
    isTestFile := false, isCriticalPath := false }

/-- A caller flagged as critical-path. -/
def critCaller : Caller := { plainCaller with isCriticalPath := true }

/-- Coverage of the first fixture: 18/25 lines (72%), 0/1 branches. -/
def covA : CoverageInfo :=
  { lines := { total := 25, covered := 18, percentage := 72 },
    branches := { total := 1, covered := 0, percentage := 0 } }

/-- Test mapping of the first fixture. -/
def mapA : TestMapping :=
  { sourceFile := "/x/f.ts", testFiles := ["/x/f.test.ts"], coverage := some covA }

/-- Coverage of the second fixture: 5/6 on both metrics (250/3 %). -/
def covB : CoverageInfo :=
  { lines := { total := 6, covered := 5, percentage := 250/3 },
    branches := { total := 6, covered := 5, percentage := 250/3 } }

/-- Test mapping of the second fixture. -/
def mapB : TestMapping :=
  { sourceFile := "/x/f.ts", testFiles := ["/x/f.test.ts"], coverage := some covB }

/-- Five untested direct callers with the 72%/0% coverage mapping:
weighted sum 4.96. -/
def inputA : RiskInput :=
  { directCallers := [plainCaller, plainCaller, plainCaller, plainCaller,
      plainCaller],
    transitiveCallers := [],
    untestedCallers := [plainCaller, plainCaller, plainCaller, plainCaller,
      plainCaller],
    affectedTests := [mapA], filePath := "/x/f.ts" }

/-- Fifteen direct callers (six on critical paths), ten untested, with
the 250/3 % coverage mapping: weighted sum exactly 5. -/
def inputB : RiskInput :=
  { directCallers := [plainCaller, plainCaller, plainCaller, plainCaller,
      plainCaller, plainCaller, plainCaller, plainCaller, plainCaller,
      critCaller, critCaller, critCaller, critCaller, critCaller, critCaller],
    transitiveCallers := [],
    untestedCallers := [plainCaller, plainCaller, plainCaller, plainCaller,
      plainCaller, plainCaller, plainCaller, plainCaller, plainCaller,
      plainCaller],
    affectedTests := [mapB], filePath := "/x/f.ts" }

/-- C2 counterexample: the claim is false as stated.  The level is
computed from the clamped weighted sum before rounding, while the
returned value is rounded to one decimal, so under the default
thresholds (medium = 5) the input `inputA` (weighted sum 4.96) returns
value 5.0 with level MEDIUM — its value reaches the medium threshold yet
the level is not High — while `inputB` (weighted sum exactly 5) returns
the same value 5.0 with level HIGH, so the level is not a monotone
function of the returned value either. -/
theorem risk_level_rounding_counterexample :
    cfg0.riskThresholds.medium = 5 ∧
    (calculateRisk env0 cfg0 DEFAULT_WEIGHTS inputA).value = 5 ∧
    (calculateRisk env0 cfg0 DEFAULT_WEIGHTS inputA).level = RiskLevel.medium ∧
    (calculateRisk env0 cfg0 DEFAULT_WEIGHTS inputB).value = 5 ∧
    (calculateRisk env0 cfg0 DEFAULT_WEIGHTS inputB).level = RiskLevel.high := by
  have htA : targetTestsOf inputA = some mapA := rfl
  have htB : targetTestsOf inputB = some mapB := rfl
  have hcovA : calculateTestCoverageFactor DEFAULT_WEIGHTS inputA =
      coverageFactorForMapping DEFAULT_WEIGHTS mapA := by
    simp only [calculateTestCoverageFactor, htA]
  have hcovB : calculateTestCoverageFactor DEFAULT_WEIGHTS inputB =
      coverageFactorForMapping DEFAULT_WEIGHTS mapB := by
    simp only [calculateTestCoverageFactor, htB]
  have hsumA : weightedSumOf (riskFactors env0 cfg0 DEFAULT_WEIGHTS inputA) =
      496/100 := by
    rw [riskFactors, hcovA]
    simp [weightedSumOf, calculateCallerFactor,
      calculateUntestedFactor, calculateCriticalPathFactor,
      coverageFactorForMapping,
      calculateTransitiveFactor, scorerIsInCriticalPath, inputA, mapA, covA,
      plainCaller, cfg0, DEFAULT_CONFIG, DEFAULT_WEIGHTS]
    norm_num
  have hsumB : weightedSumOf (riskFactors env0 cfg0 DEFAULT_WEIGHTS inputB) =
      5 := by
    rw [riskFactors, hcovB]
    simp [weightedSumOf, calculateCallerFactor,
      calculateUntestedFactor, calculateCriticalPathFactor,
      coverageFactorForMapping,
      calculateTransitiveFactor, scorerIsInCriticalPath, inputB, mapB, covB,
      plainCaller, critCaller, cfg0, DEFAULT_CONFIG, DEFAULT_WEIGHTS, min_def]
    norm_num
  have hnsA : min (10:ℚ) (max 0 (496/100)) = 496/100 := by
    rw [max_eq_right (by norm_num : (0:ℚ) ≤ 496/100),
      min_eq_right (by norm_num : (496:ℚ)/100 ≤ 10)]
  have hnsB : min (10:ℚ) (max 0 5) = 5 := by
    rw [max_eq_right (by norm_num : (0:ℚ) ≤ 5),
      min_eq_right (by norm_num : (5:ℚ) ≤ 10)]
  refine ⟨rfl, ?_, ?_, ?_, ?_⟩
  · simp only [calculateRisk]
    rw [hsumA, hnsA]
    norm_num [jsRound]
  · simp only [calculateRisk]
    rw [hsumA, hnsA]
    simp only [determineRiskLevel, cfg0, DEFAULT_CONFIG]
    norm_num
  · simp only [calculateRisk]
    rw [hsumB, hnsB]
    norm_num [jsRound]
  · simp only [calculateRisk]
    rw [hsumB, hnsB]
    simp only [determineRiskLevel, cfg0, DEFAULT_CONFIG]
    norm_num

/-- C2 (amended): for every environment, configuration, weight set and
risk input, the returned value is a rational in [0, 10] equal to an
integer number of tenths (the clamped weighted sum rounded to one
decimal); the returned level is the threshold table applied to the
clamped weighted sum *before* rounding (so near a threshold it can
disagree with the rounded value by strictly less than 0.05); and the
level is a monotone non-decreasing function of that pre-rounding
score under any configured thresholds. -/
theorem risk_score_bounds_monotone :
    (∀ (env : ExternalEnv) (cfg : RippleConfig) (w : RiskWeights)
      (input : RiskInput),
      0 ≤ (calculateRisk env cfg w input).value ∧
      (calculateRisk env cfg w input).value ≤ 10 ∧
      ∃ k : ℤ, (calculateRisk env cfg w input).value = (k : ℚ) / 10) ∧
    (∀ (env : ExternalEnv) (cfg : RippleConfig) (w : RiskWeights)
      (input : RiskInput),
      (calculateRisk env cfg w input).level =
        determineRiskLevel cfg (normalizedScore env cfg w input)) ∧
    (∀ (cfg : RippleConfig) (s1 s2 : ℚ), s1 ≤ s2 →
      RiskLevel.rank (determineRiskLevel cfg s1) ≤
        RiskLevel.rank (determineRiskLevel cfg s2)) := by
  refine ⟨?_, ?_, ?_⟩
  · intro env cfg w input
    set ns := min (10:ℚ) (max 0 (weightedSumOf (riskFactors env cfg w input)))
      with hns
    have h0 : 0 ≤ ns := le_min (by norm_num) (le_max_left 0 _)
    have h10 : ns ≤ 10 := min_le_left _ _
    have hval : (calculateRisk env cfg w input).value =
        (jsRound (ns * 10) : ℚ) / 10 := rfl
    have hlow : (0:ℤ) ≤ jsRound (ns * 10) := by
      unfold jsRound
      have hx : ((0:ℤ):ℚ) ≤ ns * 10 + 1/2 := by push_cast; nlinarith
      exact Int.le_floor.mpr hx
    have hhigh : jsRound (ns * 10) ≤ 100 := by
      unfold jsRound
      have h1 : ns * 10 + 1/2 ≤ 100 + 1/2 := by nlinarith
      have h2 : ⌊ns * 10 + 1/2⌋ ≤ ⌊(100:ℚ) + 1/2⌋ := Int.floor_le_floor h1
      have h3 : ⌊(100:ℚ) + 1/2⌋ = 100 := by norm_num
      omega
    refine ⟨?_, ?_, jsRound (ns * 10), hval⟩
    · rw [hval]
      apply div_nonneg _ (by norm_num : (0:ℚ) ≤ 10)
      exact_mod_cast hlow
    · rw [hval, div_le_iff₀ (by norm_num : (0:ℚ) < 10)]
      have hc : ((jsRound (ns * 10) : ℤ) : ℚ) ≤ 100 := by exact_mod_cast hhigh
      linarith
  · intro env cfg w input
    rfl
  · intro cfg s1 s2 h
    unfold determineRiskLevel
    split_ifs <;> simp [RiskLevel.rank] <;> linarith

/-- Closed instance of `risk_score_bounds_monotone`, with the
monotonicity hypothesis discharged at concrete scores 0 ≤ 1. -/
theorem risk_score_bounds_monotone_witness :
    (0 ≤ (calculateRisk env0 cfg0 DEFAULT_WEIGHTS inputA).value ∧
      (calculateRisk env0 cfg0 DEFAULT_WEIGHTS inputA).value ≤ 10 ∧
      ∃ k : ℤ, (calculateRisk env0 cfg0 DEFAULT_WEIGHTS inputA).value =
        (k : ℚ) / 10) ∧
    (calculateRisk env0 cfg0 DEFAULT_WEIGHTS inputA).level =
      determineRiskLevel cfg0 (normalizedScore env0 cfg0 DEFAULT_WEIGHTS inputA) ∧
    ((0:ℚ) ≤ 1 ∧
      RiskLevel.rank (determineRiskLevel cfg0 0) ≤
        RiskLevel.rank (determineRiskLevel cfg0 1)) :=
  ⟨risk_score_bounds_monotone.1 env0 cfg0 DEFAULT_WEIGHTS inputA,
   risk_score_bounds_monotone.2.1 env0 cfg0 DEFAULT_WEIGHTS inputA,
   ⟨zero_le_one, risk_score_bounds_monotone.2.2 cfg0 0 1 zero_le_one⟩⟩

end Ripple
